import Mathlib

/-!
Verification development for the realestate-search-interface repository.

Two subsystems are modelled as a shallow embedding:
* the Location Resolution Engine of `src/index.js`
  (`levenshteinDistance`, `areaCitySubdivisionMatch` with its helpers
  `checkMatches`, `findRecordsForValue`, `buildResult`), and
* the Detail Enrichment Cache of `src/routes/db.js`
  (`getListingPhotos`, `getVrTours`, `getOpenHouses`,
  `checkPhotoTourResFromDb`, `insertPhotosOpensToursToDb`,
  `checkTourAndOpenDetails`, `formatListingsRaw`).

JavaScript strings are modelled by Lean `String` (character-level; the
source never relies on UTF-16 surrogate behaviour), JS numbers used as
counts/indices by `Nat`, JS float confidences by `ℚ` (the source only
ever uses the decimal literals 1.0, 0.9, 0.85, 0.8, 0.75, 0.5 and
`1 - 0.15 * d`), and nullable JS values by `Option`.
-/

namespace RealEstate

/-! ## Levenshtein distance (src/index.js lines 551-578)

The source fills an `(m+1) × (n+1)` dynamic-programming matrix with
  `dp[i][0] = i`, `dp[0][j] = j`,
  `dp[i][j] = dp[i-1][j-1]`                                if `str1[i-1] == str2[j-1]`
  `dp[i][j] = 1 + min(dp[i-1][j], dp[i][j-1], dp[i-1][j-1])` otherwise
and returns `dp[m][n]`.  `dpF s1 s2 i j` is the value of the cell
`dp[i][j]` of that matrix, written as a recursive function with exactly
the source's recurrence (`s1.getD (i-1)` is the 0-based `str1[i-1]`). -/

def dpF (s1 s2 : List Char) : Nat → Nat → Nat
  | 0, j => j
  | i + 1, 0 => i + 1
  | i + 1, j + 1 =>
    if s1.getD i ' ' = s2.getD j ' ' then
      dpF s1 s2 i j
    else
      1 + min (dpF s1 s2 i (j + 1)) (min (dpF s1 s2 (i + 1) j) (dpF s1 s2 i j))

/-- `levenshteinDistance` of the source: the bottom-right cell `dp[m][n]`. -/
def levenshteinDistance (str1 str2 : String) : Nat :=
  dpF str1.data str2.data str1.data.length str2.data.length

theorem dpF_symm (s1 s2 : List Char) : ∀ i j, dpF s1 s2 i j = dpF s2 s1 j i := by
  intro i
  induction i with
  | zero =>
    intro j
    cases j with
    | zero => simp [dpF]
    | succ j => simp [dpF]
  | succ i ih =>
    intro j
    induction j with
    | zero => simp [dpF]
    | succ j ihj =>
      simp only [dpF]
      by_cases h : s1.getD i ' ' = s2.getD j ' '
      · rw [if_pos h, if_pos h.symm, ih j]
      · rw [if_neg h, if_neg (fun hc => h hc.symm), ih j, ihj, ih (j + 1)]
        omega

theorem dpF_self_diag (s : List Char) : ∀ i, dpF s s i i = 0 := by
  intro i
  induction i with
  | zero => simp [dpF]
  | succ i ih => simpa [dpF] using ih

/-! ## Geography lookup data and the match result shape
(src/index.js lines 589-608 and the return-object documentation at 633-643)

A row of `locationLookupCache` is one `SELECT DISTINCT` row; each of the
three columns may be SQL `NULL` (`Option.none`).  JavaScript's
`.filter(Boolean)` drops both `null` and the empty string. -/

structure GeoRec where
  city : Option String
  mlsareamajor : Option String
  subdivision : Option String
deriving DecidableEq, Repr

inductive FieldName
  | city
  | mlsareamajor
  | subdivision
deriving DecidableEq, Repr

inductive MatchType
  | exact
  | startsWith
  | contains
  | fuzzy
deriving DecidableEq, Repr

/-- An element of a result's `matches` array: the exact / startsWith /
contains tiers push plain value strings, the fuzzy tier pushes
`{value, field, distance}` objects. -/
inductive MatchItem
  | plain (value : String)
  | scored (field : FieldName) (value : String) (distance : Nat)
deriving DecidableEq, Repr

/-- The return object of `areaCitySubdivisionMatch`.  Keys that a given
return site does not set are `none` (absent / `null` in JS). -/
structure MatchResult where
  city : Option String
  mlsareamajor : Option String
  subdivision : Option String
  matchType : MatchType
  matchedField : FieldName
  matchedValue : Option String
  confidence : ℚ
  ambiguous : Bool
  inputReceived : String
  possibleCities : Option (List String)
  possibleAreas : Option (List String)
  «matches» : Option (List MatchItem)
  allMatches : Option (List (FieldName × String))
deriving DecidableEq, Repr

/-- `[...new Set(list)]`: deduplicate, keeping the first occurrence of
each value in order. -/
def jsSetDedup (l : List String) : List String :=
  l.foldl (fun acc v => if v ∈ acc then acc else acc ++ [v]) []

/-- `.map(r => r.fld).filter(Boolean)`: keep only non-null, non-empty
strings. -/
def truthyStrings (l : List (Option String)) : List String :=
  l.filterMap (fun o =>
    match o with
    | some s => if s = "" then none else some s
    | none => none)

def uniqueCities (lookupData : List GeoRec) : List String :=
  jsSetDedup (truthyStrings (lookupData.map GeoRec.city))

def uniqueAreas (lookupData : List GeoRec) : List String :=
  jsSetDedup (truthyStrings (lookupData.map GeoRec.mlsareamajor))

def uniqueSubdivisions (lookupData : List GeoRec) : List String :=
  jsSetDedup (truthyStrings (lookupData.map GeoRec.subdivision))

/-- `s.toLowerCase()`: lowercase each character. -/
def jsToLower (s : String) : String :=
  String.mk (s.data.map Char.toLower)

/-- `s.trim()`: strip leading and trailing whitespace. -/
def jsTrim (s : String) : String :=
  String.mk (((s.data.dropWhile Char.isWhitespace).reverse.dropWhile Char.isWhitespace).reverse)

/-- `s.startsWith(pre)`. -/
def jsStartsWith (s pre : String) : Bool :=
  pre.data.isPrefixOf s.data

def includesGo (needle : List Char) : List Char → Bool
  | [] => needle.isEmpty
  | c :: t => needle.isPrefixOf (c :: t) || includesGo needle t

/-- `a.includes(b)` on JS strings: `b` occurs as a contiguous substring
of `a`. -/
def jsIncludes (a b : String) : Bool :=
  includesGo b.data a.data

/-! ## checkMatches (src/index.js lines 670-705)

Each candidate value is classified by an `else if` chain into the first
tier it satisfies: exact, startsWith, contains, then fuzzy (the latter
only when the normalized input has length ≥ 4 and the edit distance is
within `min(FUZZY_THRESHOLD, floor(valueLower.length / 3))`). -/

def FUZZY_THRESHOLD : Nat := 3

def isExactHit (normalized v : String) : Bool :=
  jsToLower v = normalized

def isStartsWithHit (normalized v : String) : Bool :=
  !isExactHit normalized v && jsStartsWith (jsToLower v) normalized

def isContainsHit (normalized v : String) : Bool :=
  !isExactHit normalized v && !isStartsWithHit normalized v &&
    (jsIncludes (jsToLower v) normalized || jsIncludes normalized (jsToLower v))

/-- The fuzzy arm of the chain: `some d` when the candidate reaches the
fuzzy test and qualifies, `none` otherwise. -/
def fuzzyHit (normalized v : String) : Option Nat :=
  if isExactHit normalized v || isStartsWithHit normalized v || isContainsHit normalized v then
    none
  else if 4 ≤ normalized.length then
    let distance := levenshteinDistance normalized (jsToLower v)
    if distance ≤ min FUZZY_THRESHOLD ((jsToLower v).length / 3) then some distance else none
  else
    none

/-- The four per-field accumulator arrays of `matches` filled by
`checkMatches` for one field (the `if (!value) continue;` guard keeps
only truthy values, which the unique-value lists already are). -/
structure FieldMatches where
  exact : List String
  startsWith : List String
  contains : List String
  fuzzy : List (String × Nat)
deriving DecidableEq, Repr

def checkMatches (normalized : String) (values : List String) : FieldMatches where
  exact := values.filter (fun v => !(v = "") && isExactHit normalized v)
  startsWith := values.filter (fun v => !(v = "") && isStartsWithHit normalized v)
  contains := values.filter (fun v => !(v = "") && isContainsHit normalized v)
  fuzzy := values.filterMap (fun v =>
    if v = "" then none else (fuzzyHit normalized v).map (fun d => (v, d)))

/-- The `matches` object after the three `checkMatches(...)` calls. -/
structure AllFieldMatches where
  city : FieldMatches
  mlsareamajor : FieldMatches
  subdivision : FieldMatches
deriving DecidableEq, Repr

def computeAllMatches (normalized : String) (lookupData : List GeoRec) : AllFieldMatches where
  city := checkMatches normalized (uniqueCities lookupData)
  mlsareamajor := checkMatches normalized (uniqueAreas lookupData)
  subdivision := checkMatches normalized (uniqueSubdivisions lookupData)

/-- The normalization step `userInput.toLowerCase().trim()`. -/
def normalizeInput (s : String) : String := jsTrim (jsToLower s)

/-! ## buildResult (src/index.js lines 707-778) -/

def fieldOf (r : GeoRec) (f : FieldName) : Option String :=
  match f with
  | .city => r.city
  | .mlsareamajor => r.mlsareamajor
  | .subdivision => r.subdivision

/-- `lookupData.filter(r => fieldValue && fieldValue.toLowerCase() ===
value.toLowerCase())` (a `null` or empty field value is falsy). -/
def findRecordsForValue (lookupData : List GeoRec) (fieldName : FieldName) (value : String) :
    List GeoRec :=
  lookupData.filter (fun r =>
    match fieldOf r fieldName with
    | some s => !(s = "") && (jsToLower s = jsToLower value)
    | none => false)

/-- `uniqueParents.cities` computed by `buildResult` for a matched value. -/
def parentCities (lookupData : List GeoRec) (fieldName : FieldName) (value : String) :
    List String :=
  jsSetDedup (truthyStrings ((findRecordsForValue lookupData fieldName value).map GeoRec.city))

/-- `uniqueParents.areas` computed by `buildResult` for a matched value. -/
def parentAreas (lookupData : List GeoRec) (fieldName : FieldName) (value : String) :
    List String :=
  jsSetDedup
    (truthyStrings ((findRecordsForValue lookupData fieldName value).map GeoRec.mlsareamajor))

/-- `buildResult(matchType, fieldName, value, confidence, allMatches)`:
starts from a blank result, fills the hierarchy fields per the `switch`
on `fieldName` (populating unique parents, flagging parent ambiguity),
then flags pool ambiguity when `allMatches` has more than one entry. -/
def buildResult (lookupData : List GeoRec) (userInput : String) (matchType : MatchType)
    (fieldName : FieldName) (value : String) (confidence : ℚ)
    (allMatches : Option (List MatchItem)) : MatchResult :=
  let parentCities := parentCities lookupData fieldName value
  let parentAreas := parentAreas lookupData fieldName value
  let base : MatchResult :=
    { city := none, mlsareamajor := none, subdivision := none,
      matchType := matchType, matchedField := fieldName, matchedValue := some value,
      confidence := confidence, ambiguous := false, inputReceived := userInput,
      possibleCities := none, possibleAreas := none, «matches» := none, allMatches := none }
  let afterSwitch : MatchResult :=
    match fieldName with
    | .subdivision =>
      let r := { base with subdivision := some value }
      let r := if parentCities.length = 1 then { r with city := parentCities.head? } else r
      let r := if parentAreas.length = 1 then { r with mlsareamajor := parentAreas.head? } else r
      if parentCities.length > 1 ∨ parentAreas.length > 1 then
        { r with ambiguous := true, possibleCities := some parentCities,
                 possibleAreas := some parentAreas }
      else r
    | .mlsareamajor =>
      let r := { base with mlsareamajor := some value }
      let r := if parentCities.length = 1 then { r with city := parentCities.head? } else r
      if parentCities.length > 1 then
        { r with ambiguous := true, possibleCities := some parentCities }
      else r
    | .city => { base with city := some value }
  match allMatches with
  | some l =>
    if l.length > 1 then { afterSwitch with ambiguous := true, «matches» := some l }
    else afterSwitch
  | none => afterSwitch

/-! ## The four tier blocks of areaCitySubdivisionMatch
(src/index.js lines 780-892)

Each block is the body of one `=== ... ===` section of the source; the
source returns from the first block that fires, which the model renders
as `Option`-valued blocks tried in order. -/

def exactTier (lookupData : List GeoRec) (userInput : String) (m : AllFieldMatches) :
    Option MatchResult :=
  if m.subdivision.exact.length = 1 then
    some (buildResult lookupData userInput .exact .subdivision
      (m.subdivision.exact.getD 0 "") 1 none)
  else if m.subdivision.exact.length > 1 then
    some (buildResult lookupData userInput .exact .subdivision
      (m.subdivision.exact.getD 0 "") 1 (some (m.subdivision.exact.map .plain)))
  else if m.mlsareamajor.exact.length = 1 then
    some (buildResult lookupData userInput .exact .mlsareamajor
      (m.mlsareamajor.exact.getD 0 "") 1 none)
  else if m.mlsareamajor.exact.length > 1 then
    some (buildResult lookupData userInput .exact .mlsareamajor
      (m.mlsareamajor.exact.getD 0 "") 1 (some (m.mlsareamajor.exact.map .plain)))
  else if m.city.exact.length = 1 then
    some (buildResult lookupData userInput .exact .city (m.city.exact.getD 0 "") 1 none)
  else if m.city.exact.length > 1 then
    some (buildResult lookupData userInput .exact .city (m.city.exact.getD 0 "") 1
      (some (m.city.exact.map .plain)))
  else none

/-- `allStartsWith`: the pooled prefix hits, city entries first, then
mlsareamajor, then subdivision, as the source array literal spreads them. -/
def swPool (m : AllFieldMatches) : List (FieldName × String) :=
  m.city.startsWith.map (fun v => (.city, v)) ++
    m.mlsareamajor.startsWith.map (fun v => (.mlsareamajor, v)) ++
    m.subdivision.startsWith.map (fun v => (.subdivision, v))

def swTier (lookupData : List GeoRec) (userInput : String) (m : AllFieldMatches) :
    Option MatchResult :=
  let pool := swPool m
  if pool.length = 1 then
    let hit := pool.getD 0 (.city, "")
    some (buildResult lookupData userInput .startsWith hit.1 hit.2 (9/10) none)
  else if pool.length > 1 then
    let cityMatches := pool.filter (fun p => p.1 = .city)
    if cityMatches.length > 0 then
      some { city := none, mlsareamajor := none, subdivision := none,
             matchType := .startsWith, matchedField := .city, matchedValue := none,
             confidence := 85/100, ambiguous := true, inputReceived := userInput,
             possibleCities := none, possibleAreas := none,
             «matches» := some (cityMatches.map (fun p => .plain p.2)),
             allMatches := some pool }
    else
      let firstHit := pool.getD 0 (.city, "")
      some (buildResult lookupData userInput .startsWith firstHit.1 firstHit.2 (85/100)
        (some (pool.map (fun p => .plain p.2))))
  else none

/-- `allContains`: the pooled substring hits, in the same field order. -/
def ctPool (m : AllFieldMatches) : List (FieldName × String) :=
  m.city.contains.map (fun v => (.city, v)) ++
    m.mlsareamajor.contains.map (fun v => (.mlsareamajor, v)) ++
    m.subdivision.contains.map (fun v => (.subdivision, v))

def ctTier (lookupData : List GeoRec) (userInput : String) (m : AllFieldMatches) :
    Option MatchResult :=
  let pool := ctPool m
  if pool.length = 1 then
    let hit := pool.getD 0 (.city, "")
    some (buildResult lookupData userInput .contains hit.1 hit.2 (8/10) none)
  else if pool.length > 1 then
    let cityMatches := pool.filter (fun p => p.1 = .city)
    if cityMatches.length > 0 then
      some { city := none, mlsareamajor := none, subdivision := none,
             matchType := .contains, matchedField := .city, matchedValue := none,
             confidence := 75/100, ambiguous := true, inputReceived := userInput,
             possibleCities := none, possibleAreas := none,
             «matches» := some (cityMatches.map (fun p => .plain p.2)),
             allMatches := some pool }
    else
      let firstHit := pool.getD 0 (.city, "")
      some (buildResult lookupData userInput .contains firstHit.1 firstHit.2 (75/100)
        (some (pool.map (fun p => .plain p.2))))
  else none

/-- `Math.max(0.5, 1 - (distance * 0.15))`. -/
def fuzzyConfidence (distance : Nat) : ℚ :=
  max (1/2) (1 - (15/100) * (distance : ℚ))

/-- Insert an entry after every entry of smaller-or-equal distance:
one step of a stable ascending insertion sort. -/
def insertByDistance (a : FieldName × String × Nat) :
    List (FieldName × String × Nat) → List (FieldName × String × Nat)
  | [] => [a]
  | b :: bs => if b.2.2 ≤ a.2.2 then b :: insertByDistance a bs else a :: b :: bs

/-- Stable ascending sort by distance, modelling
`.sort((a, b) => a.distance - b.distance)` (ECMAScript `Array.prototype.sort`
is stable, and any stable ascending sort yields the same list). -/
def sortByDistance : List (FieldName × String × Nat) → List (FieldName × String × Nat)
  | [] => []
  | a :: as => insertByDistance a (sortByDistance as)

/-- `allFuzzy`: pooled fuzzy hits (city, mlsareamajor, subdivision order)
sorted ascending by distance. -/
def fuzzyPool (m : AllFieldMatches) : List (FieldName × String × Nat) :=
  sortByDistance
    (m.city.fuzzy.map (fun p => (FieldName.city, p.1, p.2)) ++
      m.mlsareamajor.fuzzy.map (fun p => (FieldName.mlsareamajor, p.1, p.2)) ++
      m.subdivision.fuzzy.map (fun p => (FieldName.subdivision, p.1, p.2)))

def fuzzyTier (lookupData : List GeoRec) (userInput : String) (m : AllFieldMatches) :
    Option MatchResult :=
  let pool := fuzzyPool m
  if pool.length = 1 then
    let hit := pool.getD 0 (.city, "", 0)
    some (buildResult lookupData userInput .fuzzy hit.1 hit.2.1 (fuzzyConfidence hit.2.2) none)
  else if pool.length > 1 then
    let firstHit := pool.getD 0 (.city, "", 0)
    some (buildResult lookupData userInput .fuzzy firstHit.1 firstHit.2.1
      (fuzzyConfidence firstHit.2.2)
      (some (pool.map (fun p => .scored p.1 p.2.1 p.2.2))))
  else none

/-- `areaCitySubdivisionMatch(userInput, dbClient)` with the geography
lookup cache passed explicitly (the source loads it once per process and
reads it immutably).  Empty / whitespace-only input returns `null`
before touching the cache; otherwise the input is lowercased and
trimmed, every unique field value is classified, and the four tier
blocks run in priority order. -/
def areaCitySubdivisionMatch (userInput : String) (lookupData : List GeoRec) :
    Option MatchResult :=
  if jsTrim userInput = "" then none
  else
    let normalized := normalizeInput userInput
    let m := computeAllMatches normalized lookupData
    match exactTier lookupData userInput m with
    | some r => some r
    | none =>
      match swTier lookupData userInput m with
      | some r => some r
      | none =>
        match ctTier lookupData userInput m with
        | some r => some r
        | none => fuzzyTier lookupData userInput m

/-! ## Helper lemmas about the resolution model -/

theorem jsSetDedup_subset {l : List String} {v : String} (h : v ∈ jsSetDedup l) : v ∈ l := by
  have key : ∀ (l : List String) (acc : List String),
      v ∈ l.foldl (fun acc v => if v ∈ acc then acc else acc ++ [v]) acc → v ∈ acc ∨ v ∈ l := by
    intro l
    induction l with
    | nil => intro acc h; exact Or.inl h
    | cons x xs ih =>
      intro acc h
      simp only [List.foldl_cons] at h
      rcases ih _ h with h' | h'
      · by_cases hx : x ∈ acc
        · rw [if_pos hx] at h'; exact Or.inl h'
        · rw [if_neg hx] at h'
          rcases List.mem_append.mp h' with h'' | h''
          · exact Or.inl h''
          · simp at h''; subst h''; exact Or.inr (List.mem_cons_self _ _)
      · exact Or.inr (List.mem_cons_of_mem _ h')
  rcases key l [] h with h' | h'
  · cases h'
  · exact h'

theorem mem_jsSetDedup {l : List String} {v : String} (h : v ∈ l) : v ∈ jsSetDedup l := by
  have key : ∀ (l : List String) (acc : List String), v ∈ acc ∨ v ∈ l →
      v ∈ l.foldl (fun acc v => if v ∈ acc then acc else acc ++ [v]) acc := by
    intro l
    induction l with
    | nil => intro acc h; simpa using h.resolve_right (by simp)
    | cons x xs ih =>
      intro acc h
      simp only [List.foldl_cons]
      apply ih
      by_cases hx : x ∈ acc
      · rw [if_pos hx]
        rcases h with h | h
        · exact Or.inl h
        · rcases List.mem_cons.mp h with h | h
          · subst h; exact Or.inl hx
          · exact Or.inr h
      · rw [if_neg hx]
        rcases h with h | h
        · exact Or.inl (List.mem_append_left _ h)
        · rcases List.mem_cons.mp h with h | h
          · subst h; exact Or.inl (List.mem_append_right _ (by simp))
          · exact Or.inr h
  exact key l [] (Or.inr h)

theorem truthyStrings_ne_empty {l : List (Option String)} {v : String}
    (h : v ∈ truthyStrings l) : v ≠ "" := by
  simp only [truthyStrings, List.mem_filterMap] at h
  rcases h with ⟨o, _, ho⟩
  cases o with
  | none => simp at ho
  | some s =>
    by_cases hs : s = "" <;> simp [hs] at ho
    subst ho; exact hs

theorem mem_unique_ne_empty {data : List GeoRec} {v : String}
    (h : v ∈ uniqueSubdivisions data ++ uniqueAreas data ++ uniqueCities data) : v ≠ "" := by
  rcases List.mem_append.mp h with h' | h'
  · rcases List.mem_append.mp h' with h'' | h''
    · exact truthyStrings_ne_empty (jsSetDedup_subset h'')
    · exact truthyStrings_ne_empty (jsSetDedup_subset h'')
  · exact truthyStrings_ne_empty (jsSetDedup_subset h')

/-- Fields of `buildResult` that come straight from its arguments. -/
theorem buildResult_proj (d : List GeoRec) (u : String) (mt : MatchType) (f : FieldName)
    (v : String) (c : ℚ) (am : Option (List MatchItem)) :
    (buildResult d u mt f v c am).matchType = mt ∧
    (buildResult d u mt f v c am).matchedField = f ∧
    (buildResult d u mt f v c am).matchedValue = some v ∧
    (buildResult d u mt f v c am).confidence = c ∧
    (buildResult d u mt f v c am).inputReceived = u := by
  cases f <;> cases am <;> simp only [buildResult] <;> (try split_ifs) <;> simp_all

/-- `buildResult` with no `allMatches` argument never carries a
candidate pool. -/
theorem buildResult_matches_none (d : List GeoRec) (u : String) (mt : MatchType) (f : FieldName)
    (v : String) (c : ℚ) :
    (buildResult d u mt f v c none).«matches» = none := by
  cases f <;> simp only [buildResult] <;> (try split_ifs) <;> simp_all

/-- `buildResult` with a multi-entry `allMatches` pool flags ambiguity
and carries the pool. -/
theorem buildResult_matches_some (d : List GeoRec) (u : String) (mt : MatchType) (f : FieldName)
    (v : String) (c : ℚ) (l : List MatchItem) (hl : 1 < l.length) :
    (buildResult d u mt f v c (some l)).«matches» = some l ∧
    (buildResult d u mt f v c (some l)).ambiguous = true := by
  have hl' : l.length > 1 := hl
  cases f <;> simp only [buildResult, if_pos hl'] <;> simp_all

/-- The mlsareamajor arm of `buildResult`'s switch: the derived city is
populated exactly for one distinct parent, and parent ambiguity is
flagged with the full set, at every tier. -/
theorem buildResult_area_parents (d : List GeoRec) (u : String) (mt : MatchType)
    (v : String) (c : ℚ) (am : Option (List MatchItem)) :
    (buildResult d u mt .mlsareamajor v c am).mlsareamajor = some v ∧
    (buildResult d u mt .mlsareamajor v c am).subdivision = none ∧
    (buildResult d u mt .mlsareamajor v c am).city =
      (if (parentCities d .mlsareamajor v).length = 1
       then (parentCities d .mlsareamajor v).head? else none) ∧
    (buildResult d u mt .mlsareamajor v c am).possibleCities =
      (if 1 < (parentCities d .mlsareamajor v).length
       then some (parentCities d .mlsareamajor v) else none) ∧
    (1 < (parentCities d .mlsareamajor v).length →
      (buildResult d u mt .mlsareamajor v c am).ambiguous = true) := by
  cases am <;> simp only [buildResult] <;> split_ifs <;> simp_all

/-- The subdivision arm of `buildResult`'s switch. -/
theorem buildResult_subdivision_parents (d : List GeoRec) (u : String) (mt : MatchType)
    (v : String) (c : ℚ) (am : Option (List MatchItem)) :
    (buildResult d u mt .subdivision v c am).subdivision = some v ∧
    (buildResult d u mt .subdivision v c am).city =
      (if (parentCities d .subdivision v).length = 1
       then (parentCities d .subdivision v).head? else none) ∧
    (buildResult d u mt .subdivision v c am).mlsareamajor =
      (if (parentAreas d .subdivision v).length = 1
       then (parentAreas d .subdivision v).head? else none) ∧
    (buildResult d u mt .subdivision v c am).possibleCities =
      (if 1 < (parentCities d .subdivision v).length ∨ 1 < (parentAreas d .subdivision v).length
       then some (parentCities d .subdivision v) else none) ∧
    (buildResult d u mt .subdivision v c am).possibleAreas =
      (if 1 < (parentCities d .subdivision v).length ∨ 1 < (parentAreas d .subdivision v).length
       then some (parentAreas d .subdivision v) else none) ∧
    (1 < (parentCities d .subdivision v).length ∨ 1 < (parentAreas d .subdivision v).length →
      (buildResult d u mt .subdivision v c am).ambiguous = true) := by
  cases am <;> simp only [buildResult] <;> split_ifs <;> simp_all

theorem getD_zero_mem {α : Type} {l : List α} (a : α) (h : l ≠ []) : l.getD 0 a ∈ l := by
  cases l with
  | nil => exact absurd rfl h
  | cons x xs => simp [List.getD]

theorem head?_eq_getD_zero {l : List String} (h : l ≠ []) : l.head? = some (l.getD 0 "") := by
  cases l with
  | nil => exact absurd rfl h
  | cons x xs => simp [List.getD]

/-- When a field's exact list is nonempty the first exact block of the
source fires: one hit takes the plain branch, several hits take the
ambiguous branch; both call `buildResult` on the first hit. -/
theorem exactTier_eq_of_sub (d : List GeoRec) (u : String) (m : AllFieldMatches)
    (h : m.subdivision.exact ≠ []) :
    exactTier d u m = some (buildResult d u .exact .subdivision (m.subdivision.exact.getD 0 "") 1
      (if 1 < m.subdivision.exact.length then some (m.subdivision.exact.map .plain) else none)) := by
  rcases hl : m.subdivision.exact with _ | ⟨v, vs⟩
  · exact absurd hl h
  · rcases vs with _ | ⟨v', vs'⟩
    · simp [exactTier, hl]
    · simp [exactTier, hl]

theorem exactTier_eq_of_area (d : List GeoRec) (u : String) (m : AllFieldMatches)
    (hS : m.subdivision.exact = []) (h : m.mlsareamajor.exact ≠ []) :
    exactTier d u m = some (buildResult d u .exact .mlsareamajor
      (m.mlsareamajor.exact.getD 0 "") 1
      (if 1 < m.mlsareamajor.exact.length then some (m.mlsareamajor.exact.map .plain)
       else none)) := by
  rcases hl : m.mlsareamajor.exact with _ | ⟨v, vs⟩
  · exact absurd hl h
  · rcases vs with _ | ⟨v', vs'⟩
    · simp [exactTier, hS, hl]
    · simp [exactTier, hS, hl]

theorem exactTier_eq_of_city (d : List GeoRec) (u : String) (m : AllFieldMatches)
    (hS : m.subdivision.exact = []) (hA : m.mlsareamajor.exact = [])
    (h : m.city.exact ≠ []) :
    exactTier d u m = some (buildResult d u .exact .city (m.city.exact.getD 0 "") 1
      (if 1 < m.city.exact.length then some (m.city.exact.map .plain) else none)) := by
  rcases hl : m.city.exact with _ | ⟨v, vs⟩
  · exact absurd hl h
  · rcases vs with _ | ⟨v', vs'⟩
    · simp [exactTier, hS, hA, hl]
    · simp [exactTier, hS, hA, hl]

theorem exactTier_none (d : List GeoRec) (u : String) (m : AllFieldMatches)
    (hS : m.subdivision.exact = []) (hA : m.mlsareamajor.exact = [])
    (hC : m.city.exact = []) : exactTier d u m = none := by
  simp [exactTier, hS, hA, hC]

/-- Every result the exact block emits is a `buildResult` at the exact
tier with confidence 1. -/
theorem exactTier_shape (d : List GeoRec) (u : String) (m : AllFieldMatches) (r : MatchResult)
    (h : exactTier d u m = some r) :
    ∃ f v am, r = buildResult d u .exact f v 1 am := by
  unfold exactTier at h
  split_ifs at h <;> exact ⟨_, _, _, (Option.some.inj h).symm⟩

theorem swTier_none (d : List GeoRec) (u : String) (m : AllFieldMatches)
    (h : swPool m = []) : swTier d u m = none := by
  simp [swTier, h]

theorem ctTier_none (d : List GeoRec) (u : String) (m : AllFieldMatches)
    (h : ctPool m = []) : ctTier d u m = none := by
  simp [ctTier, h]

theorem swTier_eq_single (d : List GeoRec) (u : String) (m : AllFieldMatches)
    (h : (swPool m).length = 1) :
    swTier d u m = some (buildResult d u .startsWith ((swPool m).getD 0 (.city, "")).1
      ((swPool m).getD 0 (.city, "")).2 (9/10) none) := by
  simp [swTier, h]

theorem swTier_eq_multi_city (d : List GeoRec) (u : String) (m : AllFieldMatches)
    (h1 : 1 < (swPool m).length)
    (h2 : (swPool m).filter (fun p => p.1 = .city) ≠ []) :
    swTier d u m =
      some { city := none, mlsareamajor := none, subdivision := none,
             matchType := .startsWith, matchedField := .city, matchedValue := none,
             confidence := 85/100, ambiguous := true, inputReceived := u,
             possibleCities := none, possibleAreas := none,
             «matches» := some (((swPool m).filter (fun p => p.1 = .city)).map
               (fun p => .plain p.2)),
             allMatches := some (swPool m) } := by
  have hne : (swPool m).length ≠ 1 := by omega
  have hlen : 0 < ((swPool m).filter (fun p => p.1 = .city)).length :=
    List.length_pos.mpr h2
  simp [swTier, hne, h1, hlen]

theorem swTier_eq_multi_nocity (d : List GeoRec) (u : String) (m : AllFieldMatches)
    (h1 : 1 < (swPool m).length)
    (h2 : (swPool m).filter (fun p => p.1 = .city) = []) :
    swTier d u m = some (buildResult d u .startsWith ((swPool m).getD 0 (.city, "")).1
      ((swPool m).getD 0 (.city, "")).2 (85/100)
      (some ((swPool m).map (fun p => .plain p.2)))) := by
  have hne : (swPool m).length ≠ 1 := by omega
  simp [swTier, hne, h1, h2]

theorem ctTier_eq_single (d : List GeoRec) (u : String) (m : AllFieldMatches)
    (h : (ctPool m).length = 1) :
    ctTier d u m = some (buildResult d u .contains ((ctPool m).getD 0 (.city, "")).1
      ((ctPool m).getD 0 (.city, "")).2 (8/10) none) := by
  simp [ctTier, h]

theorem ctTier_eq_multi_city (d : List GeoRec) (u : String) (m : AllFieldMatches)
    (h1 : 1 < (ctPool m).length)
    (h2 : (ctPool m).filter (fun p => p.1 = .city) ≠ []) :
    ctTier d u m =
      some { city := none, mlsareamajor := none, subdivision := none,
             matchType := .contains, matchedField := .city, matchedValue := none,
             confidence := 75/100, ambiguous := true, inputReceived := u,
             possibleCities := none, possibleAreas := none,
             «matches» := some (((ctPool m).filter (fun p => p.1 = .city)).map
               (fun p => .plain p.2)),
             allMatches := some (ctPool m) } := by
  have hne : (ctPool m).length ≠ 1 := by omega
  have hlen : 0 < ((ctPool m).filter (fun p => p.1 = .city)).length :=
    List.length_pos.mpr h2
  simp [ctTier, hne, h1, hlen]

theorem ctTier_eq_multi_nocity (d : List GeoRec) (u : String) (m : AllFieldMatches)
    (h1 : 1 < (ctPool m).length)
    (h2 : (ctPool m).filter (fun p => p.1 = .city) = []) :
    ctTier d u m = some (buildResult d u .contains ((ctPool m).getD 0 (.city, "")).1
      ((ctPool m).getD 0 (.city, "")).2 (75/100)
      (some ((ctPool m).map (fun p => .plain p.2)))) := by
  have hne : (ctPool m).length ≠ 1 := by omega
  simp [ctTier, hne, h1, h2]

/-- Every result the startsWith block emits: the single-hit
`buildResult` at 0.9, the city-preference record at 0.85, or the
first-hit `buildResult` at 0.85 with the full pool attached. -/
theorem swTier_shape (d : List GeoRec) (u : String) (m : AllFieldMatches) (r : MatchResult)
    (h : swTier d u m = some r) :
    (∃ f v, r = buildResult d u .startsWith f v (9/10) none) ∨
    (r.matchType = .startsWith ∧ r.confidence = 85/100 ∧ r.ambiguous = true ∧
      (∃ l, r.«matches» = some l) ∧ r.matchedField = .city ∧ r.matchedValue = none ∧
      r.city = none ∧ r.mlsareamajor = none ∧ r.subdivision = none) ∨
    (∃ f v l, 1 < l.length ∧ r = buildResult d u .startsWith f v (85/100) (some l)) := by
  simp only [swTier] at h
  split_ifs at h with h1 h2 h3
  · exact Or.inl ⟨_, _, (Option.some.inj h).symm⟩
  · refine Or.inr (Or.inl ?_)
    rw [← Option.some.inj h]
    exact ⟨rfl, rfl, rfl, ⟨_, rfl⟩, rfl, rfl, rfl, rfl, rfl⟩
  · refine Or.inr (Or.inr ⟨_, _, _, ?_, (Option.some.inj h).symm⟩)
    simpa using h2

theorem ctTier_shape (d : List GeoRec) (u : String) (m : AllFieldMatches) (r : MatchResult)
    (h : ctTier d u m = some r) :
    (∃ f v, r = buildResult d u .contains f v (8/10) none) ∨
    (r.matchType = .contains ∧ r.confidence = 75/100 ∧ r.ambiguous = true ∧
      (∃ l, r.«matches» = some l) ∧ r.matchedField = .city ∧ r.matchedValue = none ∧
      r.city = none ∧ r.mlsareamajor = none ∧ r.subdivision = none) ∨
    (∃ f v l, 1 < l.length ∧ r = buildResult d u .contains f v (75/100) (some l)) := by
  simp only [ctTier] at h
  split_ifs at h with h1 h2 h3
  · exact Or.inl ⟨_, _, (Option.some.inj h).symm⟩
  · refine Or.inr (Or.inl ?_)
    rw [← Option.some.inj h]
    exact ⟨rfl, rfl, rfl, ⟨_, rfl⟩, rfl, rfl, rfl, rfl, rfl⟩
  · refine Or.inr (Or.inr ⟨_, _, _, ?_, (Option.some.inj h).symm⟩)
    simpa using h2

/-- Every result the fuzzy block emits is a `buildResult` on a pool
member, at that member's own recorded distance. -/
theorem fuzzyTier_shape (d : List GeoRec) (u : String) (m : AllFieldMatches) (r : MatchResult)
    (h : fuzzyTier d u m = some r) :
    ∃ e am, e ∈ fuzzyPool m ∧
      r = buildResult d u .fuzzy e.1 e.2.1 (fuzzyConfidence e.2.2) am := by
  simp only [fuzzyTier] at h
  split_ifs at h with h1 h2
  · exact ⟨_, _, getD_zero_mem _ (by simp [← List.length_pos, h1]), (Option.some.inj h).symm⟩
  · exact ⟨_, _, getD_zero_mem _ (by simp [← List.length_pos]; omega), (Option.some.inj h).symm⟩

/-- The resolver tries the four tier blocks in priority order. -/
theorem resolve_some_cases (input : String) (data : List GeoRec) (r : MatchResult)
    (h : areaCitySubdivisionMatch input data = some r) :
    exactTier data input (computeAllMatches (normalizeInput input) data) = some r ∨
    swTier data input (computeAllMatches (normalizeInput input) data) = some r ∨
    ctTier data input (computeAllMatches (normalizeInput input) data) = some r ∨
    fuzzyTier data input (computeAllMatches (normalizeInput input) data) = some r := by
  by_cases hg : jsTrim input = ""
  · simp [areaCitySubdivisionMatch, hg] at h
  · simp only [areaCitySubdivisionMatch, if_neg hg] at h
    rcases hE : exactTier data input (computeAllMatches (normalizeInput input) data) with _ | r1
    · rw [hE] at h
      rcases hS : swTier data input (computeAllMatches (normalizeInput input) data) with _ | r2
      · rw [hS] at h
        rcases hC : ctTier data input (computeAllMatches (normalizeInput input) data) with _ | r3
        · rw [hC] at h
          exact Or.inr (Or.inr (Or.inr h))
        · rw [hC] at h
          exact Or.inr (Or.inr (Or.inl h))
      · rw [hS] at h
        exact Or.inr (Or.inl h)
    · rw [hE] at h
      exact Or.inl h

@[simp] theorem computeAllMatches_city (n : String) (data : List GeoRec) :
    (computeAllMatches n data).city = checkMatches n (uniqueCities data) := rfl

@[simp] theorem computeAllMatches_area (n : String) (data : List GeoRec) :
    (computeAllMatches n data).mlsareamajor = checkMatches n (uniqueAreas data) := rfl

@[simp] theorem computeAllMatches_sub (n : String) (data : List GeoRec) :
    (computeAllMatches n data).subdivision = checkMatches n (uniqueSubdivisions data) := rfl

/-- The fuzzy arm fires exactly under the conditions of the source's
`else if` chain: no higher tier matched, the normalized input has at
least 4 characters, and the recorded distance is the Levenshtein
distance, within `min(3, floor(valueLower.length / 3))`. -/
theorem fuzzyHit_iff (n v : String) (d : Nat) :
    fuzzyHit n v = some d ↔
      (isExactHit n v = false ∧ isStartsWithHit n v = false ∧ isContainsHit n v = false ∧
       4 ≤ n.length ∧ d = levenshteinDistance n (jsToLower v) ∧
       d ≤ min 3 ((jsToLower v).length / 3)) := by
  constructor
  · intro h
    simp only [fuzzyHit] at h
    split_ifs at h with h1 h2 h3
    · simp only [Bool.or_eq_true, not_or, Bool.not_eq_true] at h1
      obtain ⟨⟨ha, hb⟩, hc⟩ : (isExactHit n v = false ∧ isStartsWithHit n v = false) ∧
          isContainsHit n v = false := by tauto
      have hd := (Option.some.inj h).symm
      exact ⟨ha, hb, hc, h2, hd, by simpa [FUZZY_THRESHOLD, ← hd] using h3⟩
  · rintro ⟨he, hs, hc, hlen, hd, hth⟩
    simp only [fuzzyHit, he, hs, hc, Bool.or_self, Bool.false_eq_true, if_false,
      if_pos hlen]
    rw [if_pos (by simpa [FUZZY_THRESHOLD, ← hd] using hth), hd]

theorem mem_insertByDistance {e a : FieldName × String × Nat}
    {l : List (FieldName × String × Nat)} :
    e ∈ insertByDistance a l ↔ e = a ∨ e ∈ l := by
  induction l with
  | nil => simp [insertByDistance]
  | cons b bs ih =>
    simp only [insertByDistance]
    split_ifs
    · simp [ih]
      tauto
    · simp

theorem mem_sortByDistance {e : FieldName × String × Nat}
    {l : List (FieldName × String × Nat)} :
    e ∈ sortByDistance l ↔ e ∈ l := by
  induction l with
  | nil => simp [sortByDistance]
  | cons a as ih => simp [sortByDistance, mem_insertByDistance, ih]

/-- Entries of the (sorted) fuzzy pool record the Levenshtein distance
of their own value against the normalized input. -/
theorem fuzzyPool_mem_distance (n : String) (data : List GeoRec) (e : FieldName × String × Nat)
    (he : e ∈ fuzzyPool (computeAllMatches n data)) :
    e.2.2 = levenshteinDistance n (jsToLower e.2.1) := by
  simp only [fuzzyPool, mem_sortByDistance, List.mem_append, List.mem_map,
    computeAllMatches_city, computeAllMatches_area, computeAllMatches_sub] at he
  have key : ∀ (values : List String) (p : String × Nat),
      p ∈ (checkMatches n values).fuzzy → p.2 = levenshteinDistance n (jsToLower p.1) := by
    intro values p hp
    simp only [checkMatches, List.mem_filterMap] at hp
    rcases hp with ⟨v, _, hsome⟩
    by_cases hve : v = ""
    · simp [hve] at hsome
    · rw [if_neg hve, Option.map_eq_some'] at hsome
      rcases hsome with ⟨d, hfz, rfl⟩
      exact ((fuzzyHit_iff n v d).mp hfz).2.2.2.2.1
  rcases he with (⟨p, hp, rfl⟩ | ⟨p, hp, rfl⟩) | ⟨p, hp, rfl⟩ <;>
    exact key _ _ hp

theorem fuzzyConfidence_bounds (d : Nat) :
    1/2 ≤ fuzzyConfidence d ∧ fuzzyConfidence d ≤ 1 := by
  unfold fuzzyConfidence
  refine ⟨le_max_left _ _, max_le (by norm_num) ?_⟩
  have h : (0:ℚ) ≤ (15/100) * (d : ℚ) := by positivity
  linarith

/-- The behaviour claimed for the winning exact field: the first hit is
the matched value; a single hit carries no candidate pool; several hits
flag ambiguity and carry all hit values. -/
def winnerProps (l : List String) (r : MatchResult) : Prop :=
  r.matchedValue = l.head? ∧
  (l.length = 1 → r.«matches» = none) ∧
  (1 < l.length → r.ambiguous = true ∧ r.«matches» = some (l.map MatchItem.plain))

theorem winnerProps_buildResult (d : List GeoRec) (u : String) (mt : MatchType) (f : FieldName)
    (c : ℚ) (l : List String) (hl : l ≠ []) :
    winnerProps l (buildResult d u mt f (l.getD 0 "") c
      (if 1 < l.length then some (l.map MatchItem.plain) else none)) := by
  refine ⟨?_, ?_, ?_⟩
  · rw [(buildResult_proj d u mt f (l.getD 0 "") c _).2.2.1]
    exact (head?_eq_getD_zero hl).symm
  · intro h1
    rw [if_neg (by omega)]
    exact buildResult_matches_none d u mt f (l.getD 0 "") c
  · intro h1
    rw [if_pos h1]
    have h2 := buildResult_matches_some d u mt f (l.getD 0 "") c (l.map .plain)
      (by simpa using h1)
    exact ⟨h2.2, h2.1⟩

/-- A value that exact-hits the normalized input lands in that field's
exact list. -/
theorem mem_exact_list {n : String} {values : List String} {v : String}
    (hv : v ∈ values) (hne : v ≠ "") (hhit : jsToLower v = n) :
    v ∈ (checkMatches n values).exact := by
  simp only [checkMatches, List.mem_filter]
  exact ⟨hv, by simp [isExactHit, hne, hhit]⟩

/-! ## Claim C1 -/

/-- Claim C1: for every input case-insensitively equal to at least one
known city, area, or subdivision value, `areaCitySubdivisionMatch`
returns an exact-tier result (`matchType = exact`, confidence 1.0)
whose matched field is the most specific field containing an exact hit
(subdivision before mlsareamajor before city, regardless of hits at
less-specific fields); exactly one hit at the winning field yields a
single match carrying no candidate pool ("non-ambiguous" in the spec's
glossary sense: no tied candidates); several hits yield an ambiguous
match carrying all hit values.  (An input equal to a known value is
necessarily not whitespace-only, which `h0` records explicitly.) -/
theorem c1_exact_tier_resolution (userInput : String) (data : List GeoRec)
    (h0 : ¬ jsTrim userInput = "")
    (hhit : ∃ v, v ∈ uniqueSubdivisions data ++ uniqueAreas data ++ uniqueCities data ∧
      jsToLower v = normalizeInput userInput) :
    ∃ r, areaCitySubdivisionMatch userInput data = some r ∧
      r.matchType = .exact ∧ r.confidence = 1 ∧
      (((checkMatches (normalizeInput userInput) (uniqueSubdivisions data)).exact ≠ [] →
          r.matchedField = .subdivision ∧
          winnerProps ((checkMatches (normalizeInput userInput) (uniqueSubdivisions data)).exact)
            r) ∧
       ((checkMatches (normalizeInput userInput) (uniqueSubdivisions data)).exact = [] →
        (checkMatches (normalizeInput userInput) (uniqueAreas data)).exact ≠ [] →
          r.matchedField = .mlsareamajor ∧
          winnerProps ((checkMatches (normalizeInput userInput) (uniqueAreas data)).exact) r) ∧
       ((checkMatches (normalizeInput userInput) (uniqueSubdivisions data)).exact = [] →
        (checkMatches (normalizeInput userInput) (uniqueAreas data)).exact = [] →
          r.matchedField = .city ∧
          winnerProps ((checkMatches (normalizeInput userInput) (uniqueCities data)).exact) r)) := by
  obtain ⟨v, hv, hveq⟩ := hhit
  have hvne : v ≠ "" := mem_unique_ne_empty hv
  by_cases hS : (checkMatches (normalizeInput userInput) (uniqueSubdivisions data)).exact = []
  · by_cases hA : (checkMatches (normalizeInput userInput) (uniqueAreas data)).exact = []
    · -- the hit must be a city value
      have hC : (checkMatches (normalizeInput userInput) (uniqueCities data)).exact ≠ [] := by
        rcases List.mem_append.mp hv with h' | h'
        · rcases List.mem_append.mp h' with h'' | h''
          · exact absurd (mem_exact_list h'' hvne hveq) (by simp [hS])
          · exact absurd (mem_exact_list h'' hvne hveq) (by simp [hA])
        · exact List.ne_nil_of_mem (mem_exact_list h' hvne hveq)
      have hE := exactTier_eq_of_city data userInput
        (computeAllMatches (normalizeInput userInput) data) (by simpa using hS)
        (by simpa using hA) (by simpa using hC)
      simp only [computeAllMatches_city] at hE
      refine ⟨buildResult data userInput .exact .city
          ((checkMatches (normalizeInput userInput) (uniqueCities data)).exact.getD 0 "") 1
          (if 1 < (checkMatches (normalizeInput userInput) (uniqueCities data)).exact.length
           then some ((checkMatches (normalizeInput userInput)
             (uniqueCities data)).exact.map MatchItem.plain)
           else none), ?_, ?_⟩
      · simp only [areaCitySubdivisionMatch, if_neg h0]
        rw [hE]
      · refine ⟨(buildResult_proj _ _ _ _ _ _ _).1, (buildResult_proj _ _ _ _ _ _ _).2.2.2.1,
          ?_, ?_, ?_⟩
        · intro h; exact absurd hS (by simp [h])
        · intro _ h; exact absurd hA (by simp [h])
        · intro _ _
          exact ⟨(buildResult_proj _ _ _ _ _ _ _).2.1, winnerProps_buildResult _ _ _ _ _ _ hC⟩
    · have hE := exactTier_eq_of_area data userInput
        (computeAllMatches (normalizeInput userInput) data) (by simpa using hS)
        (by simpa using hA)
      simp only [computeAllMatches_area] at hE
      refine ⟨buildResult data userInput .exact .mlsareamajor
          ((checkMatches (normalizeInput userInput) (uniqueAreas data)).exact.getD 0 "") 1
          (if 1 < (checkMatches (normalizeInput userInput) (uniqueAreas data)).exact.length
           then some ((checkMatches (normalizeInput userInput)
             (uniqueAreas data)).exact.map MatchItem.plain)
           else none), ?_, ?_⟩
      · simp only [areaCitySubdivisionMatch, if_neg h0]
        rw [hE]
      · refine ⟨(buildResult_proj _ _ _ _ _ _ _).1, (buildResult_proj _ _ _ _ _ _ _).2.2.2.1,
          ?_, ?_, ?_⟩
        · intro h; exact absurd hS (by simp [h])
        · intro _ _
          exact ⟨(buildResult_proj _ _ _ _ _ _ _).2.1, winnerProps_buildResult _ _ _ _ _ _ hA⟩
        · intro _ h; exact absurd hA (by simp [h])
  · have hE := exactTier_eq_of_sub data userInput
      (computeAllMatches (normalizeInput userInput) data) (by simpa using hS)
    simp only [computeAllMatches_sub] at hE
    refine ⟨buildResult data userInput .exact .subdivision
        ((checkMatches (normalizeInput userInput) (uniqueSubdivisions data)).exact.getD 0 "") 1
        (if 1 < (checkMatches (normalizeInput userInput) (uniqueSubdivisions data)).exact.length
         then some ((checkMatches (normalizeInput userInput)
           (uniqueSubdivisions data)).exact.map MatchItem.plain)
         else none), ?_, ?_⟩
    · simp only [areaCitySubdivisionMatch, if_neg h0]
      rw [hE]
    · refine ⟨(buildResult_proj _ _ _ _ _ _ _).1, (buildResult_proj _ _ _ _ _ _ _).2.2.2.1,
        ?_, ?_, ?_⟩
      · intro _
        exact ⟨(buildResult_proj _ _ _ _ _ _ _).2.1, winnerProps_buildResult _ _ _ _ _ _ hS⟩
      · intro h; exact absurd h (by simp [hS])
      · intro h; exact absurd h (by simp [hS])

/-- The lookup data for the C1 witness: one city value "Cabo". -/
def c1Data : List GeoRec := [⟨some "Cabo", none, none⟩]

theorem c1_exact_tier_resolution_witness :
    (¬ jsTrim "Cabo" = "") ∧
    (∃ v, v ∈ uniqueSubdivisions c1Data ++ uniqueAreas c1Data ++ uniqueCities c1Data ∧
      jsToLower v = normalizeInput "Cabo") ∧
    (∃ r, areaCitySubdivisionMatch "Cabo" c1Data = some r ∧
      r.matchType = .exact ∧ r.confidence = 1 ∧
      (((checkMatches (normalizeInput "Cabo") (uniqueSubdivisions c1Data)).exact ≠ [] →
          r.matchedField = .subdivision ∧
          winnerProps ((checkMatches (normalizeInput "Cabo")
            (uniqueSubdivisions c1Data)).exact) r) ∧
       ((checkMatches (normalizeInput "Cabo") (uniqueSubdivisions c1Data)).exact = [] →
        (checkMatches (normalizeInput "Cabo") (uniqueAreas c1Data)).exact ≠ [] →
          r.matchedField = .mlsareamajor ∧
          winnerProps ((checkMatches (normalizeInput "Cabo") (uniqueAreas c1Data)).exact) r) ∧
       ((checkMatches (normalizeInput "Cabo") (uniqueSubdivisions c1Data)).exact = [] →
        (checkMatches (normalizeInput "Cabo") (uniqueAreas c1Data)).exact = [] →
          r.matchedField = .city ∧
          winnerProps ((checkMatches (normalizeInput "Cabo") (uniqueCities c1Data)).exact)
            r))) :=
  ⟨by decide, by decide, c1_exact_tier_resolution "Cabo" c1Data (by decide) (by decide)⟩

/-! ## Claim C9 -/

/-- Claim C9: the edit-distance function is symmetric —
`levenshteinDistance a b = levenshteinDistance b a` for every pair of
strings — and zero on equal inputs: `levenshteinDistance a a = 0`. -/
theorem levenshteinDistance_symm_and_self_zero :
    (∀ a b : String, levenshteinDistance a b = levenshteinDistance b a) ∧
    (∀ a : String, levenshteinDistance a a = 0) := by
  constructor
  · intro a b
    unfold levenshteinDistance
    exact dpF_symm _ _ _ _
  · intro a
    unfold levenshteinDistance
    exact dpF_self_diag _ _

/-! ## Claim C6 -/

/-- Claim C6: the fuzzy tier is evaluated for a candidate only when the
normalized input length is at least 4 and the candidate matched no
higher tier, qualifying exactly when the insert/delete/substitute
edit distance to the lowercased candidate is at most
`min(3, floor(length(candidate)/3))`; consequently an input of length
less than 4 with no exact, prefix, or substring hit at any field
resolves to `none` even when a fuzzy-qualifying candidate exists. -/
theorem c6_fuzzy_gating :
    (∀ (normalized v : String) (d : Nat),
        fuzzyHit normalized v = some d ↔
          (isExactHit normalized v = false ∧ isStartsWithHit normalized v = false ∧
           isContainsHit normalized v = false ∧ 4 ≤ normalized.length ∧
           d = levenshteinDistance normalized (jsToLower v) ∧
           d ≤ min 3 ((jsToLower v).length / 3))) ∧
    (∀ (userInput : String) (data : List GeoRec),
        (normalizeInput userInput).length < 4 →
        (checkMatches (normalizeInput userInput) (uniqueCities data)).exact = [] →
        (checkMatches (normalizeInput userInput) (uniqueCities data)).startsWith = [] →
        (checkMatches (normalizeInput userInput) (uniqueCities data)).contains = [] →
        (checkMatches (normalizeInput userInput) (uniqueAreas data)).exact = [] →
        (checkMatches (normalizeInput userInput) (uniqueAreas data)).startsWith = [] →
        (checkMatches (normalizeInput userInput) (uniqueAreas data)).contains = [] →
        (checkMatches (normalizeInput userInput) (uniqueSubdivisions data)).exact = [] →
        (checkMatches (normalizeInput userInput) (uniqueSubdivisions data)).startsWith = [] →
        (checkMatches (normalizeInput userInput) (uniqueSubdivisions data)).contains = [] →
        areaCitySubdivisionMatch userInput data = none) := by
  constructor
  · exact fuzzyHit_iff
  · intro u data hlen hce hcs hcc hae has hac hse hss hsc
    by_cases hg : jsTrim u = ""
    · simp [areaCitySubdivisionMatch, hg]
    · have hfz : ∀ values, (checkMatches (normalizeInput u) values).fuzzy = [] := by
        intro values
        simp only [checkMatches]
        rw [List.filterMap_eq_nil_iff]
        intro v _
        by_cases hve : v = ""
        · simp [hve]
        · rw [if_neg hve]
          have hnone : fuzzyHit (normalizeInput u) v = none := by
            unfold fuzzyHit
            split_ifs with h1 h2
            · rfl
            · omega
            · rfl
          simp [hnone]
      have hE := exactTier_none data u (computeAllMatches (normalizeInput u) data)
        (by simpa using hse) (by simpa using hae) (by simpa using hce)
      have hSw := swTier_none data u (computeAllMatches (normalizeInput u) data)
        (by simp [swPool, hcs, has, hss])
      have hCt := ctTier_none data u (computeAllMatches (normalizeInput u) data)
        (by simp [ctPool, hcc, hac, hsc])
      have hFz : fuzzyTier data u (computeAllMatches (normalizeInput u) data) = none := by
        have hp : fuzzyPool (computeAllMatches (normalizeInput u) data) = [] := by
          simp [fuzzyPool, hfz, sortByDistance]
        simp [fuzzyTier, hp]
      simp [areaCitySubdivisionMatch, if_neg hg, hE, hSw, hCt, hFz]

/-- The lookup data for the C6 witness: the candidate "abxc" is
fuzzy-qualifying for the input "abc" (edit distance 1, threshold
`min(3, 4/3) = 1`), but the input has length 3 < 4. -/
def c6Data : List GeoRec := [⟨some "abxc", none, none⟩]

theorem c6_fuzzy_gating_witness :
    ((normalizeInput "abc").length < 4) ∧
    ((checkMatches (normalizeInput "abc") (uniqueCities c6Data)).exact = []) ∧
    ((checkMatches (normalizeInput "abc") (uniqueCities c6Data)).startsWith = []) ∧
    ((checkMatches (normalizeInput "abc") (uniqueCities c6Data)).contains = []) ∧
    ((checkMatches (normalizeInput "abc") (uniqueAreas c6Data)).exact = []) ∧
    ((checkMatches (normalizeInput "abc") (uniqueSubdivisions c6Data)).exact = []) ∧
    areaCitySubdivisionMatch "abc" c6Data = none :=
  ⟨by decide, by decide, by decide, by decide, by decide, by decide,
    c6_fuzzy_gating.2 "abc" c6Data (by decide) (by decide) (by decide) (by decide) (by decide)
      (by decide) (by decide) (by decide) (by decide) (by decide)⟩

/-! ## Claim C7 -/

/-- The lookup data for the C7 counterexample and witness. -/
def c7Data : List GeoRec := [⟨some "x", some "abc", none⟩]

/-- Counterexample to claim C7 as stated: for input "ab" the match wins
at the PREFIX tier (`matchType = startsWith`), yet the derived parent
city is populated (`city = some "x"`), contradicting "populated only
when the match wins at the exact tier". -/
theorem c7_counterexample :
    (areaCitySubdivisionMatch "ab" c7Data).map (fun r => (r.matchType, r.city)) =
      some (MatchType.startsWith, some "x") := by decide

/-- Claim C7 (amended): derived parent fields (city for an area match;
city and mlsareamajor for a subdivision match) are populated by
`buildResult` at EVERY tier (exact, prefix, substring, fuzzy alike),
exactly when one distinct parent value exists among the cache rows
sharing the matched value; when more than one distinct parent value
exists the result is flagged ambiguous and carries the full set of
distinct parent values. -/
theorem c7_parent_population (input : String) (data : List GeoRec) (r : MatchResult)
    (h : areaCitySubdivisionMatch input data = some r) :
    (r.matchedField = .mlsareamajor →
      ∃ v, r.matchedValue = some v ∧ r.mlsareamajor = some v ∧
        r.city = (if (parentCities data .mlsareamajor v).length = 1
                  then (parentCities data .mlsareamajor v).head? else none) ∧
        (1 < (parentCities data .mlsareamajor v).length →
          r.ambiguous = true ∧
            r.possibleCities = some (parentCities data .mlsareamajor v))) ∧
    (r.matchedField = .subdivision →
      ∃ v, r.matchedValue = some v ∧ r.subdivision = some v ∧
        r.city = (if (parentCities data .subdivision v).length = 1
                  then (parentCities data .subdivision v).head? else none) ∧
        r.mlsareamajor = (if (parentAreas data .subdivision v).length = 1
                  then (parentAreas data .subdivision v).head? else none) ∧
        ((1 < (parentCities data .subdivision v).length ∨
          1 < (parentAreas data .subdivision v).length) →
          r.ambiguous = true ∧
            r.possibleCities = some (parentCities data .subdivision v) ∧
            r.possibleAreas = some (parentAreas data .subdivision v))) := by
  have hshape : (∃ mt f v c am, r = buildResult data input mt f v c am) ∨
      r.matchedField = .city := by
    rcases resolve_some_cases input data r h with hE | hS | hC | hF
    · obtain ⟨f, v, am, h'⟩ := exactTier_shape _ _ _ _ hE
      exact Or.inl ⟨_, _, _, _, _, h'⟩
    · rcases swTier_shape _ _ _ _ hS with ⟨f, v, h'⟩ | hmid | ⟨f, v, l, _, h'⟩
      · exact Or.inl ⟨_, _, _, _, _, h'⟩
      · exact Or.inr hmid.2.2.2.2.1
      · exact Or.inl ⟨_, _, _, _, _, h'⟩
    · rcases ctTier_shape _ _ _ _ hC with ⟨f, v, h'⟩ | hmid | ⟨f, v, l, _, h'⟩
      · exact Or.inl ⟨_, _, _, _, _, h'⟩
      · exact Or.inr hmid.2.2.2.2.1
      · exact Or.inl ⟨_, _, _, _, _, h'⟩
    · obtain ⟨e, am, _, h'⟩ := fuzzyTier_shape _ _ _ _ hF
      exact Or.inl ⟨_, _, _, _, _, h'⟩
  rcases hshape with ⟨mt, f, v, c, am, rfl⟩ | hcity
  · constructor
    · intro hf
      have hf' : f = .mlsareamajor := by
        rw [(buildResult_proj data input mt f v c am).2.1] at hf
        exact hf
      subst hf'
      have hp := buildResult_area_parents data input mt v c am
      refine ⟨v, (buildResult_proj _ _ _ _ _ _ _).2.2.1, hp.1, hp.2.2.1, fun hgt => ?_⟩
      exact ⟨hp.2.2.2.2 hgt, by rw [hp.2.2.2.1, if_pos hgt]⟩
    · intro hf
      have hf' : f = .subdivision := by
        rw [(buildResult_proj data input mt f v c am).2.1] at hf
        exact hf
      subst hf'
      have hp := buildResult_subdivision_parents data input mt v c am
      refine ⟨v, (buildResult_proj _ _ _ _ _ _ _).2.2.1, hp.1, hp.2.1, hp.2.2.1,
        fun hgt => ?_⟩
      exact ⟨hp.2.2.2.2.2 hgt, by rw [hp.2.2.2.1, if_pos hgt], by rw [hp.2.2.2.2.1, if_pos hgt]⟩
  · constructor <;> intro hf <;> rw [hcity] at hf <;> simp at hf

/-- The exact-tier result for input "abc" against `c7Data`, written out. -/
def c7Result : MatchResult :=
  { city := some "x", mlsareamajor := some "abc", subdivision := none,
    matchType := .exact, matchedField := .mlsareamajor, matchedValue := some "abc",
    confidence := 1, ambiguous := false, inputReceived := "abc",
    possibleCities := none, possibleAreas := none, «matches» := none, allMatches := none }

theorem c7_parent_population_witness :
    (areaCitySubdivisionMatch "abc" c7Data = some c7Result) ∧
    (∃ v, c7Result.matchedValue = some v ∧ c7Result.mlsareamajor = some v ∧
      c7Result.city = (if (parentCities c7Data .mlsareamajor v).length = 1
                then (parentCities c7Data .mlsareamajor v).head? else none) ∧
      (1 < (parentCities c7Data .mlsareamajor v).length →
        c7Result.ambiguous = true ∧
          c7Result.possibleCities = some (parentCities c7Data .mlsareamajor v))) :=
  ⟨by decide, (c7_parent_population "abc" c7Data c7Result (by decide)).1 (by decide)⟩

/-! ## Claim C2 -/

/-- The lookup data for the C2 counterexample: one city value "ab" and
one area value "ac"; the input "a" is a prefix of both. -/
def c2Data : List GeoRec := [⟨some "ab", none, none⟩, ⟨none, some "ac", none⟩]

/-- Counterexample to claim C2 as stated: for input "a" the prefix pool
is {city "ab", area "ac"}; the city pool has exactly ONE value, yet the
result is flagged ambiguous (with the single city as candidate set),
contradicting "flagged ambiguous only if the city pool has more than
one value". -/
theorem c2_counterexample :
    (areaCitySubdivisionMatch "a" c2Data).map
      (fun r => (r.matchedField, r.ambiguous, r.«matches»)) =
      some (FieldName.city, true, some [MatchItem.plain "ab"]) ∧
    ((swPool (computeAllMatches (normalizeInput "a") c2Data)).filter
      (fun p => p.1 = .city)).length = 1 := by
  constructor
  · decide
  · decide

/-- Claim C2 (amended): when no field has an exact hit and the prefix
(startsWith) tier — or, failing that, the substring (contains) tier —
has at least one hit, the hits are pooled across all three fields; a
single pooled hit is reported as-is (confidence 0.9 / 0.8, no candidate
pool); with more than one pooled hit, if the pool contains at least one
city-field hit the reported field is city at confidence 0.85 / 0.75,
flagged ambiguous whenever the TOTAL pool has more than one value (even
when the city pool has exactly one value), carrying the city hits as
candidates; otherwise the first pooled hit is reported, flagged
ambiguous, carrying the whole pool.  In particular an input that is a
prefix of exactly one value (an area value) and of nothing else yields
an area match at confidence 0.9 with no candidate pool. -/
theorem c2_pooled_partial_tiers (userInput : String) (data : List GeoRec)
    (h0 : ¬ jsTrim userInput = "")
    (hS : (checkMatches (normalizeInput userInput) (uniqueSubdivisions data)).exact = [])
    (hA : (checkMatches (normalizeInput userInput) (uniqueAreas data)).exact = [])
    (hC : (checkMatches (normalizeInput userInput) (uniqueCities data)).exact = []) :
    (((swPool (computeAllMatches (normalizeInput userInput) data)).length = 1 →
      ∃ r, areaCitySubdivisionMatch userInput data = some r ∧
        r.matchType = .startsWith ∧ r.confidence = 9/10 ∧
        r.matchedField =
          ((swPool (computeAllMatches (normalizeInput userInput) data)).getD 0 (.city, "")).1 ∧
        r.matchedValue =
          some ((swPool (computeAllMatches (normalizeInput userInput) data)).getD 0
            (.city, "")).2 ∧
        r.«matches» = none) ∧
     (1 < (swPool (computeAllMatches (normalizeInput userInput) data)).length →
      ((swPool (computeAllMatches (normalizeInput userInput) data)).filter
          (fun p => p.1 = .city) ≠ [] →
        ∃ r, areaCitySubdivisionMatch userInput data = some r ∧
          r.matchType = .startsWith ∧ r.confidence = 85/100 ∧
          r.matchedField = .city ∧ r.ambiguous = true ∧
          r.«matches» = some (((swPool (computeAllMatches (normalizeInput userInput)
            data)).filter (fun p => p.1 = .city)).map (fun p => .plain p.2))) ∧
      ((swPool (computeAllMatches (normalizeInput userInput) data)).filter
          (fun p => p.1 = .city) = [] →
        ∃ r, areaCitySubdivisionMatch userInput data = some r ∧
          r.matchType = .startsWith ∧ r.confidence = 85/100 ∧
          r.matchedField =
            ((swPool (computeAllMatches (normalizeInput userInput) data)).getD 0
              (.city, "")).1 ∧
          r.ambiguous = true ∧
          r.«matches» = some ((swPool (computeAllMatches (normalizeInput userInput)
            data)).map (fun p => .plain p.2))))) ∧
    (swPool (computeAllMatches (normalizeInput userInput) data) = [] →
     (((ctPool (computeAllMatches (normalizeInput userInput) data)).length = 1 →
       ∃ r, areaCitySubdivisionMatch userInput data = some r ∧
         r.matchType = .contains ∧ r.confidence = 8/10 ∧
         r.matchedField =
           ((ctPool (computeAllMatches (normalizeInput userInput) data)).getD 0 (.city, "")).1 ∧
         r.matchedValue =
           some ((ctPool (computeAllMatches (normalizeInput userInput) data)).getD 0
             (.city, "")).2 ∧
         r.«matches» = none) ∧
      (1 < (ctPool (computeAllMatches (normalizeInput userInput) data)).length →
       ((ctPool (computeAllMatches (normalizeInput userInput) data)).filter
           (fun p => p.1 = .city) ≠ [] →
         ∃ r, areaCitySubdivisionMatch userInput data = some r ∧
           r.matchType = .contains ∧ r.confidence = 75/100 ∧
           r.matchedField = .city ∧ r.ambiguous = true ∧
           r.«matches» = some (((ctPool (computeAllMatches (normalizeInput userInput)
             data)).filter (fun p => p.1 = .city)).map (fun p => .plain p.2))) ∧
       ((ctPool (computeAllMatches (normalizeInput userInput) data)).filter
           (fun p => p.1 = .city) = [] →
         ∃ r, areaCitySubdivisionMatch userInput data = some r ∧
           r.matchType = .contains ∧ r.confidence = 75/100 ∧
           r.matchedField =
             ((ctPool (computeAllMatches (normalizeInput userInput) data)).getD 0
               (.city, "")).1 ∧
           r.ambiguous = true ∧
           r.«matches» = some ((ctPool (computeAllMatches (normalizeInput userInput)
             data)).map (fun p => .plain p.2)))))) := by
  set M := computeAllMatches (normalizeInput userInput) data with hM
  have hE := exactTier_none data userInput M
    (by simpa [hM] using hS) (by simpa [hM] using hA) (by simpa [hM] using hC)
  refine ⟨⟨?_, ?_⟩, ?_⟩
  · intro h1
    have hSw := swTier_eq_single data userInput M h1
    refine ⟨buildResult data userInput .startsWith ((swPool M).getD 0 (.city, "")).1
      ((swPool M).getD 0 (.city, "")).2 (9/10) none, ?_, ?_, ?_, ?_, ?_, ?_⟩
    · simp only [areaCitySubdivisionMatch, if_neg h0, ← hM]
      rw [hE, hSw]
    · exact (buildResult_proj _ _ _ _ _ _ _).1
    · exact (buildResult_proj _ _ _ _ _ _ _).2.2.2.1
    · exact (buildResult_proj _ _ _ _ _ _ _).2.1
    · exact (buildResult_proj _ _ _ _ _ _ _).2.2.1
    · exact buildResult_matches_none _ _ _ _ _ _
  · intro h1
    constructor
    · intro h2
      have hSw := swTier_eq_multi_city data userInput M h1 h2
      refine ⟨{ city := none, mlsareamajor := none, subdivision := none,
                matchType := .startsWith, matchedField := .city, matchedValue := none,
                confidence := 85/100, ambiguous := true, inputReceived := userInput,
                possibleCities := none, possibleAreas := none,
                «matches» := some (((swPool M).filter (fun p => p.1 = .city)).map
                  (fun p => .plain p.2)),
                allMatches := some (swPool M) }, ?_, rfl, rfl, rfl, rfl, rfl⟩
      simp only [areaCitySubdivisionMatch, if_neg h0, ← hM]
      rw [hE, hSw]
    · intro h2
      have hSw := swTier_eq_multi_nocity data userInput M h1 h2
      have hlen : 1 < ((swPool M).map (fun p => MatchItem.plain p.2)).length := by
        simpa using h1
      refine ⟨buildResult data userInput .startsWith ((swPool M).getD 0 (.city, "")).1
        ((swPool M).getD 0 (.city, "")).2 (85/100)
        (some ((swPool M).map (fun p => .plain p.2))), ?_, ?_, ?_, ?_, ?_, ?_⟩
      · simp only [areaCitySubdivisionMatch, if_neg h0, ← hM]
        rw [hE, hSw]
      · exact (buildResult_proj _ _ _ _ _ _ _).1
      · exact (buildResult_proj _ _ _ _ _ _ _).2.2.2.1
      · exact (buildResult_proj _ _ _ _ _ _ _).2.1
      · exact (buildResult_matches_some _ _ _ _ _ _ _ hlen).2
      · exact (buildResult_matches_some _ _ _ _ _ _ _ hlen).1
  · intro hswe
    have hSw := swTier_none data userInput M hswe
    refine ⟨?_, ?_⟩
    · intro h1
      have hCt := ctTier_eq_single data userInput M h1
      refine ⟨buildResult data userInput .contains ((ctPool M).getD 0 (.city, "")).1
        ((ctPool M).getD 0 (.city, "")).2 (8/10) none, ?_, ?_, ?_, ?_, ?_, ?_⟩
      · simp only [areaCitySubdivisionMatch, if_neg h0, ← hM]
        rw [hE, hSw, hCt]
      · exact (buildResult_proj _ _ _ _ _ _ _).1
      · exact (buildResult_proj _ _ _ _ _ _ _).2.2.2.1
      · exact (buildResult_proj _ _ _ _ _ _ _).2.1
      · exact (buildResult_proj _ _ _ _ _ _ _).2.2.1
      · exact buildResult_matches_none _ _ _ _ _ _
    · intro h1
      constructor
      · intro h2
        have hCt := ctTier_eq_multi_city data userInput M h1 h2
        refine ⟨{ city := none, mlsareamajor := none, subdivision := none,
                  matchType := .contains, matchedField := .city, matchedValue := none,
                  confidence := 75/100, ambiguous := true, inputReceived := userInput,
                  possibleCities := none, possibleAreas := none,
                  «matches» := some (((ctPool M).filter (fun p => p.1 = .city)).map
                    (fun p => .plain p.2)),
                  allMatches := some (ctPool M) }, ?_, rfl, rfl, rfl, rfl, rfl⟩
        simp only [areaCitySubdivisionMatch, if_neg h0, ← hM]
        rw [hE, hSw, hCt]
      · intro h2
        have hCt := ctTier_eq_multi_nocity data userInput M h1 h2
        have hlen : 1 < ((ctPool M).map (fun p => MatchItem.plain p.2)).length := by
          simpa using h1
        refine ⟨buildResult data userInput .contains ((ctPool M).getD 0 (.city, "")).1
          ((ctPool M).getD 0 (.city, "")).2 (75/100)
          (some ((ctPool M).map (fun p => .plain p.2))), ?_, ?_, ?_, ?_, ?_, ?_⟩
        · simp only [areaCitySubdivisionMatch, if_neg h0, ← hM]
          rw [hE, hSw, hCt]
        · exact (buildResult_proj _ _ _ _ _ _ _).1
        · exact (buildResult_proj _ _ _ _ _ _ _).2.2.2.1
        · exact (buildResult_proj _ _ _ _ _ _ _).2.1
        · exact (buildResult_matches_some _ _ _ _ _ _ _ hlen).2
        · exact (buildResult_matches_some _ _ _ _ _ _ _ hlen).1

/-- The lookup data for the C2 witness: "q" is a prefix of exactly the
one area value "qx" and of nothing else. -/
def c2WData : List GeoRec := [⟨some "x", some "qx", none⟩]

theorem c2_pooled_partial_tiers_witness :
    (¬ jsTrim "q" = "") ∧
    ((checkMatches (normalizeInput "q") (uniqueSubdivisions c2WData)).exact = []) ∧
    ((checkMatches (normalizeInput "q") (uniqueAreas c2WData)).exact = []) ∧
    ((checkMatches (normalizeInput "q") (uniqueCities c2WData)).exact = []) ∧
    ((swPool (computeAllMatches (normalizeInput "q") c2WData)).length = 1) ∧
    (∃ r, areaCitySubdivisionMatch "q" c2WData = some r ∧
      r.matchType = .startsWith ∧ r.confidence = 9/10 ∧
      r.matchedField =
        ((swPool (computeAllMatches (normalizeInput "q") c2WData)).getD 0 (.city, "")).1 ∧
      r.matchedValue =
        some ((swPool (computeAllMatches (normalizeInput "q") c2WData)).getD 0 (.city, "")).2 ∧
      r.«matches» = none) :=
  ⟨by decide, by decide, by decide, by decide, by decide,
    (c2_pooled_partial_tiers "q" c2WData (by decide) (by decide) (by decide)
      (by decide)).1.1 (by decide)⟩

/-! ## Claim C8 -/

/-- The lookup data for the C8 counterexample: the single area value
"qx" sits under two distinct cities, so a prefix match on it is flagged
ambiguous (parent ambiguity) while keeping confidence 0.9. -/
def c8Data : List GeoRec := [⟨some "pa", some "qx", none⟩, ⟨some "pb", some "qx", none⟩]

/-- Counterexample to claim C8 as stated: for input "q" the result is a
prefix-tier match flagged ambiguous, yet its confidence is 0.9, not the
0.85 the claim prescribes "when ambiguous". -/
theorem c8_counterexample :
    ∃ r, areaCitySubdivisionMatch "q" c8Data = some r ∧
      r.matchType = .startsWith ∧ r.ambiguous = true ∧
      r.confidence = 9/10 ∧ ¬ r.confidence = 85/100 := by
  have hE : exactTier c8Data "q" (computeAllMatches (normalizeInput "q") c8Data) = none :=
    exactTier_none _ _ _ (by decide) (by decide) (by decide)
  have h1 : (swPool (computeAllMatches (normalizeInput "q") c8Data)).length = 1 := by decide
  have hSw := swTier_eq_single c8Data "q" (computeAllMatches (normalizeInput "q") c8Data) h1
  refine ⟨buildResult c8Data "q" .startsWith
    ((swPool (computeAllMatches (normalizeInput "q") c8Data)).getD 0 (.city, "")).1
    ((swPool (computeAllMatches (normalizeInput "q") c8Data)).getD 0 (.city, "")).2
    (9/10) none, ?_, ?_, ?_, ?_, ?_⟩
  · simp only [areaCitySubdivisionMatch, if_neg (by decide : ¬ jsTrim "q" = "")]
    rw [hE, hSw]
  · exact (buildResult_proj _ _ _ _ _ _ _).1
  · have hhit : (swPool (computeAllMatches (normalizeInput "q") c8Data)).getD 0 (.city, "") =
        (FieldName.mlsareamajor, "qx") := by decide
    rw [hhit]
    exact (buildResult_area_parents c8Data "q" .startsWith "qx" (9/10) none).2.2.2.2
      (by decide)
  · exact (buildResult_proj _ _ _ _ _ _ _).2.2.2.1
  · rw [(buildResult_proj _ _ _ _ _ _ _).2.2.2.1]
    norm_num

/-- Claim C8 (amended): every non-`none` result carries the confidence
of its tier — exact 1.0; prefix 0.9 with no candidate pool, 0.85 with
one; substring 0.8 / 0.75 likewise; fuzzy
`max(0.5, 1 − 0.15 × distance)` at the reported hit's own distance —
with parent-lookup ambiguity leaving the confidence unchanged; and
every returned confidence lies in [0.5, 1.0]. -/
theorem c8_confidence_by_tier (userInput : String) (data : List GeoRec) (r : MatchResult)
    (h : areaCitySubdivisionMatch userInput data = some r) :
    (r.matchType = .exact → r.confidence = 1) ∧
    (r.matchType = .startsWith →
      (r.«matches» = none ∧ r.confidence = 9/10) ∨
      ((∃ l, r.«matches» = some l) ∧ r.confidence = 85/100)) ∧
    (r.matchType = .contains →
      (r.«matches» = none ∧ r.confidence = 8/10) ∨
      ((∃ l, r.«matches» = some l) ∧ r.confidence = 75/100)) ∧
    (r.matchType = .fuzzy →
      ∃ v, r.matchedValue = some v ∧
        r.confidence = fuzzyConfidence (levenshteinDistance (normalizeInput userInput)
          (jsToLower v))) ∧
    (1/2 ≤ r.confidence ∧ r.confidence ≤ 1) := by
  rcases resolve_some_cases userInput data r h with hE | hSw | hCt | hF
  · obtain ⟨f, v, am, rfl⟩ := exactTier_shape _ _ _ _ hE
    have hp := buildResult_proj data userInput .exact f v 1 am
    refine ⟨fun _ => hp.2.2.2.1, fun habs => ?_, fun habs => ?_, fun habs => ?_,
      by rw [hp.2.2.2.1]; norm_num⟩
    all_goals rw [hp.1] at habs; exact absurd habs (by decide)
  · rcases swTier_shape _ _ _ _ hSw with ⟨f, v, rfl⟩ | hmid | ⟨f, v, l, hl, rfl⟩
    · have hp := buildResult_proj data userInput .startsWith f v (9/10) none
      refine ⟨fun habs => ?_, fun _ => Or.inl ⟨buildResult_matches_none _ _ _ _ _ _,
        hp.2.2.2.1⟩, fun habs => ?_, fun habs => ?_, by rw [hp.2.2.2.1]; norm_num⟩
      all_goals rw [hp.1] at habs; exact absurd habs (by decide)
    · obtain ⟨hmt, hconf, _, hml, _⟩ := hmid
      refine ⟨fun habs => ?_, fun _ => Or.inr ⟨hml, hconf⟩, fun habs => ?_,
        fun habs => ?_, by rw [hconf]; norm_num⟩
      all_goals rw [hmt] at habs; exact absurd habs (by decide)
    · have hp := buildResult_proj data userInput .startsWith f v (85/100) (some l)
      have hm := buildResult_matches_some data userInput .startsWith f v (85/100) l hl
      refine ⟨fun habs => ?_, fun _ => Or.inr ⟨⟨l, hm.1⟩, hp.2.2.2.1⟩, fun habs => ?_,
        fun habs => ?_, by rw [hp.2.2.2.1]; norm_num⟩
      all_goals rw [hp.1] at habs; exact absurd habs (by decide)
  · rcases ctTier_shape _ _ _ _ hCt with ⟨f, v, rfl⟩ | hmid | ⟨f, v, l, hl, rfl⟩
    · have hp := buildResult_proj data userInput .contains f v (8/10) none
      refine ⟨fun habs => ?_, fun habs => ?_, fun _ => Or.inl
        ⟨buildResult_matches_none _ _ _ _ _ _, hp.2.2.2.1⟩, fun habs => ?_,
        by rw [hp.2.2.2.1]; norm_num⟩
      all_goals rw [hp.1] at habs; exact absurd habs (by decide)
    · obtain ⟨hmt, hconf, _, hml, _⟩ := hmid
      refine ⟨fun habs => ?_, fun habs => ?_, fun _ => Or.inr ⟨hml, hconf⟩,
        fun habs => ?_, by rw [hconf]; norm_num⟩
      all_goals rw [hmt] at habs; exact absurd habs (by decide)
    · have hp := buildResult_proj data userInput .contains f v (75/100) (some l)
      have hm := buildResult_matches_some data userInput .contains f v (75/100) l hl
      refine ⟨fun habs => ?_, fun habs => ?_, fun _ => Or.inr ⟨⟨l, hm.1⟩, hp.2.2.2.1⟩,
        fun habs => ?_, by rw [hp.2.2.2.1]; norm_num⟩
      all_goals rw [hp.1] at habs; exact absurd habs (by decide)
  · obtain ⟨e, am, hmem, rfl⟩ := fuzzyTier_shape _ _ _ _ hF
    have hp := buildResult_proj data userInput .fuzzy e.1 e.2.1 (fuzzyConfidence e.2.2) am
    have hd := fuzzyPool_mem_distance (normalizeInput userInput) data e hmem
    refine ⟨fun habs => ?_, fun habs => ?_, fun habs => ?_,
      fun _ => ⟨e.2.1, hp.2.2.1, by rw [hp.2.2.2.1, hd]⟩, ?_⟩
    · rw [hp.1] at habs; exact absurd habs (by decide)
    · rw [hp.1] at habs; exact absurd habs (by decide)
    · rw [hp.1] at habs; exact absurd habs (by decide)
    · rw [hp.2.2.2.1]
      exact fuzzyConfidence_bounds e.2.2

/-- The data and result for the C8 witness: an exact city match. -/
def c8WData : List GeoRec := [⟨some "La Paz", none, none⟩]

/-- The exact-tier result for input "La Paz" against `c8WData`. -/
def c8WResult : MatchResult :=
  { city := some "La Paz", mlsareamajor := none, subdivision := none,
    matchType := .exact, matchedField := .city, matchedValue := some "La Paz",
    confidence := 1, ambiguous := false, inputReceived := "La Paz",
    possibleCities := none, possibleAreas := none, «matches» := none, allMatches := none }

theorem c8_confidence_by_tier_witness :
    (areaCitySubdivisionMatch "La Paz" c8WData = some c8WResult) ∧
    (c8WResult.matchType = .exact → c8WResult.confidence = 1) ∧
    (1/2 ≤ c8WResult.confidence ∧ c8WResult.confidence ≤ 1) :=
  ⟨by decide, (c8_confidence_by_tier "La Paz" c8WData c8WResult (by decide)).1,
    (c8_confidence_by_tier "La Paz" c8WData c8WResult (by decide)).2.2.2.2⟩

/-! ## Detail Enrichment Cache (src/routes/db.js)

The external provider (Spark API) is modelled as an oracle
`String → ProviderResp α` from listing ids to responses, where `α` is
the (opaque) type of one provider record; `ProviderResp.err` covers a
network error or non-2xx response (the `catch` paths), and `ok none` a
2xx payload with no `Results` field.  The detail-cache table
`mls_properties_details` is a list of rows keyed by `mlsid`; a JSONB
cell is `none` for SQL NULL, `Stored.parsed` for a structured value,
`Stored.encoded` for a stored JSON string that parses to the carried
list (its JS `.length` is the text length, never 0 for a JSON array,
which is all `formatListingsRaw` tests about it). -/

inductive ProviderResp (α : Type)
  | ok (results : Option (List α))
  | err
deriving DecidableEq

/-- `getListingPhotos` (src/routes/db.js lines 102-123):
`response.data.D.Results || []` on success, `[]` on any caught error. -/
def getListingPhotos {α : Type} (r : ProviderResp α) : List α :=
  match r with
  | .ok (some l) => l
  | .ok none => []
  | .err => []

/-- `getVrTours` (src/routes/db.js lines 148-169): same shape. -/
def getVrTours {α : Type} (r : ProviderResp α) : List α :=
  match r with
  | .ok (some l) => l
  | .ok none => []
  | .err => []

/-- `getOpenHouses` (src/routes/db.js lines 182-203): same shape.  Note
that no code path of `formatListingsRaw` / `checkTourAndOpenDetails`
ever invokes it (see claim C3). -/
def getOpenHouses {α : Type} (r : ProviderResp α) : List α :=
  match r with
  | .ok (some l) => l
  | .ok none => []
  | .err => []

inductive Stored (α : Type)
  | parsed (l : List α)
  | encoded (l : List α)
deriving DecidableEq

/-- The JS test `x.length == 0` on a retrieved cell: element count for a
structured value; a stored JSON string has text length at least 2. -/
def storedLenZero {α : Type} : Stored α → Bool
  | .parsed l => l.isEmpty
  | .encoded _ => false

structure DetailRow (α : Type) where
  photos : Option (Stored α)
  virtual_tours : Option (Stored α)
  open_houses : Option (Stored α)
deriving DecidableEq

/-- `checkPhotoTourResFromDb` (src/routes/db.js lines 617-627): a string
is parsed, a non-null object is used as-is, anything else
(null / undefined) becomes `[]`. -/
def checkPhotoTourResFromDb {α : Type} : Option (Stored α) → List α
  | some (.encoded l) => l
  | some (.parsed l) => l
  | none => []

inductive DetailField
  | photos
  | virtual_tours
  | open_houses
deriving DecidableEq

inductive WriteMode
  | insert
  | update
deriving DecidableEq

structure EnrichState (α : Type) where
  cache : List (String × DetailRow α)
  photoCalls : Nat
  tourCalls : Nat
  openCalls : Nat
  inserts : Nat
  updates : Nat
deriving DecidableEq

def emptyDetailRow {α : Type} : DetailRow α := ⟨none, none, none⟩

def setDetailField {α : Type} (row : DetailRow α) (f : DetailField) (v : Option (Stored α)) :
    DetailRow α :=
  match f with
  | .photos => { row with photos := v }
  | .virtual_tours => { row with virtual_tours := v }
  | .open_houses => { row with open_houses := v }

/-- `insertPhotosOpensToursToDb` (src/routes/db.js lines 646-684):
INSERT appends a fresh row holding only the written field (JSONB stores
the stringified list, read back as a structured value); UPDATE rewrites
that field on every row with the given mlsid.  The model counts the
statements run. -/
def insertPhotosOpensToursToDb {α : Type} (mlsid : String) (field : DetailField)
    (dataToInsert : List α) (st : EnrichState α) (mode : WriteMode) : EnrichState α :=
  match mode with
  | .insert =>
    { st with
      cache := st.cache ++
        [(mlsid, setDetailField emptyDetailRow field (some (.parsed dataToInsert)))],
      inserts := st.inserts + 1 }
  | .update =>
    { st with
      cache := st.cache.map (fun p =>
        if p.1 = mlsid then (p.1, setDetailField p.2 field (some (.parsed dataToInsert)))
        else p),
      updates := st.updates + 1 }

/-- `SELECT ... WHERE mlsid = $id LIMIT 1`: the first matching row. -/
def findRow {α : Type} : List (String × DetailRow α) → String → Option (DetailRow α)
  | [], _ => none
  | p :: rest, mlsid => if p.1 = mlsid then some p.2 else findRow rest mlsid

inductive TourMode
  | vTours
  | openHouses
deriving DecidableEq

/-- `checkTourAndOpenDetails` (src/routes/db.js lines 557-604).  The
source's `switch (mode)` has two `case "vTours":` labels (the second —
meant for open houses — is dead code, as the file's own comment at line
555 notes); a call with mode "openHouses" therefore falls through to the
empty `default:`, leaving `dataFromApi` undefined: no provider call is
made, `checkPhotoTourResFromDb(undefined)` yields `[]`, and no update
runs. -/
def checkTourAndOpenDetails {α : Type} (oT : String → ProviderResp α) (st : EnrichState α)
    (mlsid : String) (listingFieldToCheck : Nat) (rawToCheck : Option (Stored α))
    (detailsInDb : Bool) (mode : TourMode) : EnrichState α × Option (List α) :=
  if listingFieldToCheck > 0 then
    let detailsRaw := if detailsInDb then rawToCheck else some (.parsed [])
    let detailsRetrieved := checkPhotoTourResFromDb detailsRaw
    if detailsRetrieved.isEmpty then
      match mode with
      | .vTours =>
        let dataFromApi := getVrTours (oT mlsid)
        let st1 := { st with tourCalls := st.tourCalls + 1 }
        let dataFromApiChecked := checkPhotoTourResFromDb (some (.parsed dataFromApi))
        if dataFromApiChecked.isEmpty then
          (st1, some detailsRetrieved)
        else
          (insertPhotosOpensToursToDb mlsid .virtual_tours dataFromApiChecked st1 .update,
           some dataFromApiChecked)
      | .openHouses =>
        let dataFromApiChecked := checkPhotoTourResFromDb (none : Option (Stored α))
        if dataFromApiChecked.isEmpty then
          (st, some detailsRetrieved)
        else
          (st, some dataFromApiChecked)
    else (st, some detailsRetrieved)
  else (st, none)

/-- One row of the listing query, split into the fields this code
touches (`id`, the declared counts, the attached media) and `rest`, the
remaining columns carried through untouched. -/
structure Listing (α : Type) where
  id : String
  virtualtourscount : Nat
  openhousescount : Nat
  photos : Option (List α)
  vTours : Option (List α)
  vrTours : Option (List α)
  imageUrl : Option String
  rest : List (String × String)
deriving DecidableEq

/-- The photo-fetch block of the loop of `formatListingsRaw`
(src/routes/db.js lines 481-497): fetch from the provider, null the
`imageUrl`, write the photos back (INSERT when no row existed, UPDATE
when the row's photos were empty — the source spells the same block out
twice, differing only in this mode), then run the tours step with
`detailsInDb = false`. -/
def enrichFetch {α : Type} (oP oT : String → ProviderResp α) (st : EnrichState α)
    (listing : Listing α) (mode : WriteMode) : EnrichState α × Listing α :=
  let photos := getListingPhotos (oP listing.id)
  let st1 := { st with photoCalls := st.photoCalls + 1 }
  let st2 := insertPhotosOpensToursToDb listing.id .photos photos st1 mode
  let listing1 := { listing with imageUrl := none, photos := some photos }
  let tourRes := checkTourAndOpenDetails oT st2 listing1.id listing1.virtualtourscount
    (some (.parsed [])) false .vTours
  (tourRes.1, { listing1 with vTours := tourRes.2, vrTours := tourRes.2 })

/-- The cache-hit block (src/routes/db.js lines 498-510): parse the
stored photos and attach them, then run the tours step with
`detailsInDb = true` and the row's `virtual_tours` cell. -/
def enrichHit {α : Type} (oT : String → ProviderResp α) (st : EnrichState α)
    (listing : Listing α) (row : DetailRow α) (storedP : Stored α) :
    EnrichState α × Listing α :=
  let photosParsed := checkPhotoTourResFromDb (some storedP)
  let listing1 := { listing with photos := some photosParsed }
  let tourRes := checkTourAndOpenDetails oT st listing1.id listing1.virtualtourscount
    row.virtual_tours true .vTours
  (tourRes.1, { listing1 with vTours := tourRes.2, vrTours := tourRes.2 })

/-- The per-listing body of the loop of `formatListingsRaw`
(src/routes/db.js lines 461-532).  `none` models the TypeError the
source throws when a cache row exists whose `photos` cell is SQL NULL
(`photosRetrieved.length` on null). -/
def enrichOne {α : Type} (oP oT : String → ProviderResp α) (st : EnrichState α)
    (listing : Listing α) : Option (EnrichState α × Listing α) :=
  match findRow st.cache listing.id with
  | none => some (enrichFetch oP oT st listing .insert)
  | some row =>
    match row.photos with
    | none => none
    | some storedP =>
      if storedLenZero storedP then
        some (enrichFetch oP oT st listing .update)
      else
        some (enrichHit oT st listing row storedP)

/-- `formatListingsRaw` (src/routes/db.js lines 455-535): enrich each
listing in sequence, threading the cache state. -/
def formatListingsRaw {α : Type} (oP oT : String → ProviderResp α) (st : EnrichState α) :
    List (Listing α) → Option (EnrichState α × List (Listing α))
  | [] => some (st, [])
  | l :: ls =>
    match enrichOne oP oT st l with
    | none => none
    | some (st1, l1) =>
      match formatListingsRaw oP oT st1 ls with
      | none => none
      | some (st2, ls1) => some (st2, l1 :: ls1)

/-- Cache well-formedness: no row's `photos` cell is SQL NULL (such a
row makes the source throw a TypeError, see `enrichOne`). -/
def CacheOK {α : Type} (st : EnrichState α) : Prop :=
  ∀ p ∈ st.cache, (p.2).photos.isSome = true

/-! ## Helper lemmas about the enrichment model -/

theorem setDetailField_photos_ne {α : Type} (row : DetailRow α) (f : DetailField)
    (v : Option (Stored α)) (hf : ¬ f = DetailField.photos) :
    (setDetailField row f v).photos = row.photos := by
  cases f
  · exact absurd rfl hf
  · rfl
  · rfl

theorem findRow_append_none {α : Type} (cache : List (String × DetailRow α)) (mlsid : String)
    (row : DetailRow α) (h : findRow cache mlsid = none) :
    findRow (cache ++ [(mlsid, row)]) mlsid = some row := by
  induction cache with
  | nil => simp [findRow]
  | cons p rest ih =>
    simp only [findRow] at h
    by_cases hp : p.1 = mlsid
    · rw [if_pos hp] at h
      cases h
    · rw [if_neg hp] at h
      simp only [List.cons_append, findRow, if_neg hp]
      exact ih h

/-- Updating one keyed row with a photos-preserving transformation
leaves the photos view of every lookup unchanged. -/
theorem findRow_map_photosView {α : Type} (cache : List (String × DetailRow α)) (m : String)
    (g : DetailRow α → DetailRow α) (hg : ∀ row, (g row).photos = row.photos)
    (mlsid' : String) :
    (findRow (cache.map (fun p => if p.1 = m then (p.1, g p.2) else p)) mlsid').map
      DetailRow.photos = (findRow cache mlsid').map DetailRow.photos := by
  induction cache with
  | nil => rfl
  | cons p rest ih =>
    by_cases hp : p.1 = m
    · simp only [List.map_cons, if_pos hp, findRow]
      by_cases hq : p.1 = mlsid'
      · rw [if_pos hq, if_pos hq]
        simp [hg]
      · rw [if_neg hq, if_neg hq]
        exact ih
    · simp only [List.map_cons, if_neg hp, findRow]
      by_cases hq : p.1 = mlsid'
      · rw [if_pos hq, if_pos hq]
      · rw [if_neg hq, if_neg hq]
        exact ih

theorem cacheOK_insert_photos {α : Type} (st : EnrichState α) (mlsid : String)
    (dataToInsert : List α) (h : CacheOK st) :
    CacheOK (insertPhotosOpensToursToDb mlsid .photos dataToInsert st .insert) := by
  intro p hp
  simp only [insertPhotosOpensToursToDb, List.mem_append, List.mem_singleton] at hp
  rcases hp with hp | hp
  · exact h p hp
  · subst hp
    rfl

theorem cacheOK_update {α : Type} (st : EnrichState α) (mlsid : String) (f : DetailField)
    (dataToInsert : List α) (h : CacheOK st) :
    CacheOK (insertPhotosOpensToursToDb mlsid f dataToInsert st .update) := by
  intro p hp
  simp only [insertPhotosOpensToursToDb, List.mem_map] at hp
  rcases hp with ⟨q, hq, rfl⟩
  by_cases hqm : q.1 = mlsid
  · rw [if_pos hqm]
    cases f
    · rfl
    · show (setDetailField q.2 .virtual_tours _).photos.isSome = true
      rw [setDetailField_photos_ne _ _ _ (by simp)]
      exact h q hq
    · show (setDetailField q.2 .open_houses _).photos.isSome = true
      rw [setDetailField_photos_ne _ _ _ (by simp)]
      exact h q hq
  · rw [if_neg hqm]
    exact h q hq

/-- `checkTourAndOpenDetails` never fetches photos, never INSERTs,
preserves cache well-formedness, and leaves the photos view of the
cache unchanged. -/
theorem checkTour_state {α : Type} (oT : String → ProviderResp α) (st : EnrichState α)
    (mlsid : String) (cnt : Nat) (raw : Option (Stored α)) (ddb : Bool) (mode : TourMode) :
    ((checkTourAndOpenDetails oT st mlsid cnt raw ddb mode).1.photoCalls = st.photoCalls) ∧
    ((checkTourAndOpenDetails oT st mlsid cnt raw ddb mode).1.inserts = st.inserts) ∧
    (CacheOK st → CacheOK (checkTourAndOpenDetails oT st mlsid cnt raw ddb mode).1) ∧
    (∀ mlsid', ((findRow (checkTourAndOpenDetails oT st mlsid cnt raw ddb mode).1.cache
        mlsid').map DetailRow.photos) = (findRow st.cache mlsid').map DetailRow.photos) := by
  cases mode <;>
    · simp only [checkTourAndOpenDetails]
      repeat' split
      all_goals
        first
          | exact ⟨rfl, rfl, fun h => h, fun _ => rfl⟩
          | exact ⟨rfl, rfl, fun h => cacheOK_update _ _ _ _ h,
              fun mlsid' => findRow_map_photosView _ _ _
                (fun row => setDetailField_photos_ne _ _ _ (by simp)) _⟩

theorem findRow_some_mem {α : Type} {cache : List (String × DetailRow α)} {mlsid : String}
    {row : DetailRow α} (h : findRow cache mlsid = some row) : (mlsid, row) ∈ cache := by
  induction cache with
  | nil => cases h
  | cons p rest ih =>
    unfold findRow at h
    by_cases hp : p.1 = mlsid
    · rw [if_pos hp] at h
      have h2 := Option.some.inj h
      subst h2
      subst hp
      exact List.mem_cons.mpr (Or.inl rfl)
    · rw [if_neg hp] at h
      exact List.mem_cons_of_mem _ (ih h)

/-- Enriching one listing from a well-formed cache never throws,
preserves cache well-formedness, and changes none of the listing's
fields other than the attached media. -/
theorem enrichOne_ok {α : Type} (oP oT : String → ProviderResp α) (st : EnrichState α)
    (l : Listing α) (h : CacheOK st) :
    ∃ st1 l1, enrichOne oP oT st l = some (st1, l1) ∧ CacheOK st1 ∧
      l1.id = l.id ∧ l1.virtualtourscount = l.virtualtourscount ∧
      l1.openhousescount = l.openhousescount ∧ l1.rest = l.rest := by
  unfold enrichOne
  split
  next hr =>
    refine ⟨_, _, rfl, ?_, rfl, rfl, rfl, rfl⟩
    simp only [enrichFetch]
    exact (checkTour_state _ _ _ _ _ _ _).2.2.1 (cacheOK_insert_photos _ _ _ h)
  next row hr =>
    split
    next hps =>
      have hp : row.photos.isSome = true := h _ (findRow_some_mem hr)
      rw [hps] at hp
      cases hp
    next sp hps =>
      split
      · refine ⟨_, _, rfl, ?_, rfl, rfl, rfl, rfl⟩
        simp only [enrichFetch]
        exact (checkTour_state _ _ _ _ _ _ _).2.2.1 (cacheOK_update _ _ _ _ h)
      · refine ⟨_, _, rfl, ?_, rfl, rfl, rfl, rfl⟩
        simp only [enrichHit]
        exact (checkTour_state _ _ _ _ _ _ _).2.2.1 h

/-- The enrichment pipeline consumes the provider oracles only through
the caught values of `getListingPhotos` / `getVrTours`. -/
theorem enrichOne_oracle_congr {α : Type} (oP oT oP' oT' : String → ProviderResp α)
    (st : EnrichState α) (l : Listing α)
    (hP : ∀ mlsid, getListingPhotos (oP mlsid) = getListingPhotos (oP' mlsid))
    (hT : ∀ mlsid, getVrTours (oT mlsid) = getVrTours (oT' mlsid)) :
    enrichOne oP oT st l = enrichOne oP' oT' st l := by
  simp only [enrichOne, enrichFetch, enrichHit, checkTourAndOpenDetails, hP, hT]

/-- Sequential enrichment of a whole listing set from a well-formed
cache: total, and framing every listing's non-media fields. -/
theorem formatListingsRaw_ok {α : Type} (oP oT : String → ProviderResp α)
    (st : EnrichState α) (ls : List (Listing α)) (h : CacheOK st) :
    ∃ st' out, formatListingsRaw oP oT st ls = some (st', out) ∧
      List.Forall₂ (fun (a b : Listing α) => b.id = a.id ∧
        b.virtualtourscount = a.virtualtourscount ∧
        b.openhousescount = a.openhousescount ∧ b.rest = a.rest) ls out := by
  induction ls generalizing st with
  | nil => exact ⟨st, [], rfl, List.Forall₂.nil⟩
  | cons l ls ih =>
    obtain ⟨st1, l1, he, hok1, hid, hv, ho, hrst⟩ := enrichOne_ok oP oT st l h
    obtain ⟨st2, out, hf, hfa⟩ := ih st1 hok1
    refine ⟨st2, l1 :: out, ?_, List.Forall₂.cons ⟨hid, hv, ho, hrst⟩ hfa⟩
    simp only [formatListingsRaw, he, hf]

/-! ## Claim C3 -/

/-- Claim C3 (code bug): virtual tours ARE gated on
`virtualtourscount > 0` (a zero count makes `checkTourAndOpenDetails`
return immediately, no provider call), but open houses are NEVER
fetched: `formatListingsRaw` has no open-house dispatch at all, and
`checkTourAndOpenDetails` called with mode "openHouses" falls through
the duplicate-`case` switch to the empty default — no provider call, no
cache write (the source's own comment at src/routes/db.js line 555
records the bug).  Conjunct (a): a zero count performs no tour call.
Conjunct (b): openHouses mode never changes the state (in particular no
open-house fetch and no write).  Conjunct (c): at the failing input — a
listing with `openhousescount = 3`, an empty cache, and a provider
holding data — the full pipeline performs zero open-house calls and
leaves the row's `open_houses` cell NULL. -/
theorem c3_openhouses_never_fetched :
    (∀ (st : EnrichState Nat) (oT : String → ProviderResp Nat) (mlsid : String)
        (raw : Option (Stored Nat)) (ddb : Bool) (mode : TourMode),
      checkTourAndOpenDetails oT st mlsid 0 raw ddb mode = (st, none)) ∧
    (∀ (st : EnrichState Nat) (oT : String → ProviderResp Nat) (mlsid : String)
        (cnt : Nat) (raw : Option (Stored Nat)) (ddb : Bool),
      (checkTourAndOpenDetails oT st mlsid cnt raw ddb .openHouses).1 = st) ∧
    (∃ st' out, formatListingsRaw (fun _ => ProviderResp.ok (some [7]))
        (fun _ => ProviderResp.ok (some [7])) ⟨[], 0, 0, 0, 0, 0⟩
        [⟨"L1", 0, 3, none, none, none, none, []⟩] = some (st', out) ∧
      st'.openCalls = 0 ∧ st'.tourCalls = 0 ∧
      st'.cache.map (fun p => (p.2).open_houses) = [none]) := by
  refine ⟨fun st oT mlsid raw ddb mode => by simp [checkTourAndOpenDetails],
    fun st oT mlsid cnt raw ddb => ?_, ?_⟩
  · simp only [checkTourAndOpenDetails]
    repeat' split
    all_goals rfl
  · exact ⟨⟨[("L1", ⟨some (.parsed [7]), none, none⟩)], 1, 0, 0, 1, 0⟩,
      [⟨"L1", 0, 3, some [7], none, none, none, []⟩], rfl, rfl, rfl, rfl⟩

/-! ## Claim C4 -/

/-- Claim C4: enriching a listing's photos with no cache row for its id
triggers exactly one provider fetch and exactly one insert; enriching
the same listing again afterwards (row present, photos non-empty)
triggers zero provider calls and zero inserts and attaches the
previously stored value, parsed but otherwise unchanged. -/
theorem c4_photos_cache_roundtrip {α : Type} (oP oT : String → ProviderResp α)
    (st : EnrichState α) (l : Listing α)
    (hrow : findRow st.cache l.id = none) :
    ∃ st1 l1, enrichOne oP oT st l = some (st1, l1) ∧
      st1.photoCalls = st.photoCalls + 1 ∧ st1.inserts = st.inserts + 1 ∧
      l1.photos = some (getListingPhotos (oP l.id)) ∧
      (getListingPhotos (oP l.id) ≠ [] →
        ∃ st2 l2, enrichOne oP oT st1 l1 = some (st2, l2) ∧
          st2.photoCalls = st1.photoCalls ∧ st2.inserts = st1.inserts ∧
          l2.photos = some (getListingPhotos (oP l.id))) := by
  have h1 : enrichOne oP oT st l = some (enrichFetch oP oT st l .insert) := by
    unfold enrichOne
    rw [hrow]
  refine ⟨(enrichFetch oP oT st l .insert).1, (enrichFetch oP oT st l .insert).2,
    h1, ?_, ?_, rfl, fun hne => ?_⟩
  · show (enrichFetch oP oT st l .insert).1.photoCalls = st.photoCalls + 1
    simp only [enrichFetch]
    rw [(checkTour_state _ _ _ _ _ _ _).1]
    rfl
  · show (enrichFetch oP oT st l .insert).1.inserts = st.inserts + 1
    simp only [enrichFetch]
    rw [(checkTour_state _ _ _ _ _ _ _).2.1]
    rfl
  · have hv : ((findRow (enrichFetch oP oT st l .insert).1.cache l.id).map
        DetailRow.photos) = some (some (.parsed (getListingPhotos (oP l.id)))) := by
      simp only [enrichFetch]
      rw [(checkTour_state _ _ _ _ _ _ _).2.2.2 l.id]
      simp only [insertPhotosOpensToursToDb]
      rw [findRow_append_none _ _ _ hrow]
      rfl
    obtain ⟨row', hrow', hphotos'⟩ : ∃ row',
        findRow (enrichFetch oP oT st l .insert).1.cache l.id = some row' ∧
        row'.photos = some (.parsed (getListingPhotos (oP l.id))) := by
      cases hfr : findRow (enrichFetch oP oT st l .insert).1.cache l.id with
      | none => rw [hfr] at hv; cases hv
      | some row' =>
        rw [hfr] at hv
        exact ⟨row', rfl, Option.some.inj hv⟩
    have hsz : ¬ storedLenZero (Stored.parsed (getListingPhotos (oP l.id))) = true := by
      simp only [storedLenZero, List.isEmpty_iff]
      exact hne
    have h2 : enrichOne oP oT (enrichFetch oP oT st l .insert).1
        (enrichFetch oP oT st l .insert).2 =
        some (enrichHit oT (enrichFetch oP oT st l .insert).1
          (enrichFetch oP oT st l .insert).2 row'
          (.parsed (getListingPhotos (oP l.id)))) := by
      unfold enrichOne
      rw [show (enrichFetch oP oT st l .insert).2.id = l.id from rfl]
      split
      next hr2 =>
        rw [hr2] at hrow'
        cases hrow'
      next row2 hr2 =>
        rw [hr2] at hrow'
        have hr3 := Option.some.inj hrow'
        subst hr3
        split
        next hps2 =>
          rw [hps2] at hphotos'
          cases hphotos'
        next sp2 hps2 =>
          rw [hps2] at hphotos'
          have hsp := Option.some.inj hphotos'
          subst hsp
          rw [if_neg hsz]
    refine ⟨_, _, h2, ?_, ?_, rfl⟩
    · show (enrichHit oT (enrichFetch oP oT st l .insert).1
          (enrichFetch oP oT st l .insert).2 row'
          (.parsed (getListingPhotos (oP l.id)))).1.photoCalls =
        (enrichFetch oP oT st l .insert).1.photoCalls
      simp only [enrichHit]
      rw [(checkTour_state _ _ _ _ _ _ _).1]
    · show (enrichHit oT (enrichFetch oP oT st l .insert).1
          (enrichFetch oP oT st l .insert).2 row'
          (.parsed (getListingPhotos (oP l.id)))).1.inserts =
        (enrichFetch oP oT st l .insert).1.inserts
      simp only [enrichHit]
      rw [(checkTour_state _ _ _ _ _ _ _).2.1]

def c4WListing : Listing Nat :=
  ⟨"K2", 0, 0, none, none, none, none, [("city", "x")]⟩

def c4OracleP : String → ProviderResp Nat := fun _ => ProviderResp.ok (some [5])

def c4OracleT : String → ProviderResp Nat := fun _ => ProviderResp.ok (some [6])

theorem c4_photos_cache_roundtrip_witness :
    (findRow (⟨[], 0, 0, 0, 0, 0⟩ : EnrichState Nat).cache c4WListing.id = none) ∧
    (∃ st1 l1, enrichOne c4OracleP c4OracleT (⟨[], 0, 0, 0, 0, 0⟩ : EnrichState Nat)
        c4WListing = some (st1, l1) ∧
      st1.photoCalls = (⟨[], 0, 0, 0, 0, 0⟩ : EnrichState Nat).photoCalls + 1 ∧
      st1.inserts = (⟨[], 0, 0, 0, 0, 0⟩ : EnrichState Nat).inserts + 1 ∧
      l1.photos = some (getListingPhotos (c4OracleP c4WListing.id)) ∧
      (getListingPhotos (c4OracleP c4WListing.id) ≠ [] →
        ∃ st2 l2, enrichOne c4OracleP c4OracleT st1 l1 = some (st2, l2) ∧
          st2.photoCalls = st1.photoCalls ∧ st2.inserts = st1.inserts ∧
          l2.photos = some (getListingPhotos (c4OracleP c4WListing.id)))) :=
  ⟨rfl, c4_photos_cache_roundtrip c4OracleP c4OracleT _ c4WListing rfl⟩

/-! ## Claim C5 -/

/-- Claim C5: a provider failure (network error or non-2xx response) on
any field of any listing is caught and resolved to an empty list for
that field (`getListingPhotos`/`getVrTours` of `err` is `[]`), the
pipeline's behaviour depends on the oracles only through those caught
values (so a failing call behaves exactly like a successful empty one:
sibling fields and other listings are unaffected), and the overall
request still completes (the pipeline is total from a well-formed
cache). -/
theorem c5_provider_failure_isolated {α : Type} (oP oT oP' oT' : String → ProviderResp α)
    (st : EnrichState α) (ls : List (Listing α))
    (hP : ∀ mlsid, getListingPhotos (oP mlsid) = getListingPhotos (oP' mlsid))
    (hT : ∀ mlsid, getVrTours (oT mlsid) = getVrTours (oT' mlsid)) :
    formatListingsRaw oP oT st ls = formatListingsRaw oP' oT' st ls ∧
    getListingPhotos (ProviderResp.err : ProviderResp α) = [] ∧
    getVrTours (ProviderResp.err : ProviderResp α) = [] ∧
    (CacheOK st → (formatListingsRaw oP oT st ls).isSome = true) := by
  refine ⟨?_, rfl, rfl, fun h => ?_⟩
  · induction ls generalizing st with
    | nil => rfl
    | cons l ls ih =>
      simp only [formatListingsRaw]
      rw [enrichOne_oracle_congr oP oT oP' oT' st l hP hT]
      cases he : enrichOne oP' oT' st l with
      | none => rfl
      | some pr =>
        obtain ⟨st1, l1⟩ := pr
        simp only [ih st1]
  · obtain ⟨st', out, hf, _⟩ := formatListingsRaw_ok oP oT st ls h
    simp [hf]

def c5WListing : Listing Nat :=
  ⟨"L9", 2, 0, none, none, none, none, [("price", "100")]⟩

/-- An always-failing provider. -/
def c5ErrOracle : String → ProviderResp Nat := fun _ => ProviderResp.err

/-- A provider that succeeds with an empty result list. -/
def c5EmptyOracle : String → ProviderResp Nat := fun _ => ProviderResp.ok (some [])

theorem c5_provider_failure_isolated_witness :
    (∀ mlsid, getListingPhotos (c5ErrOracle mlsid) = getListingPhotos (c5EmptyOracle mlsid)) ∧
    (∀ mlsid, getVrTours (c5ErrOracle mlsid) = getVrTours (c5EmptyOracle mlsid)) ∧
    (formatListingsRaw c5ErrOracle c5ErrOracle (⟨[], 0, 0, 0, 0, 0⟩ : EnrichState Nat)
        [c5WListing] =
      formatListingsRaw c5EmptyOracle c5EmptyOracle ⟨[], 0, 0, 0, 0, 0⟩ [c5WListing]) ∧
    (CacheOK (⟨[], 0, 0, 0, 0, 0⟩ : EnrichState Nat) →
      (formatListingsRaw c5ErrOracle c5ErrOracle (⟨[], 0, 0, 0, 0, 0⟩ : EnrichState Nat)
        [c5WListing]).isSome = true) :=
  ⟨fun _ => rfl, fun _ => rfl,
    (c5_provider_failure_isolated c5ErrOracle c5ErrOracle c5EmptyOracle c5EmptyOracle
      _ _ (fun _ => rfl) (fun _ => rfl)).1,
    (c5_provider_failure_isolated c5ErrOracle c5ErrOracle c5EmptyOracle c5EmptyOracle
      _ _ (fun _ => rfl) (fun _ => rfl)).2.2.2⟩

/-! ## Claim C10 -/

/-- Claim C10 (implicit frame property): from a well-formed cache (no
row with a NULL photos cell — such a row makes the source throw),
enrichment returns a sequence of the same length in the same order —
no listing dropped or added — and for each listing every field other
than the attached media (`photos`, `vTours`, `vrTours`, `imageUrl`) is
unchanged: `id`, `virtualtourscount`, `openhousescount`, and `rest`
(all remaining row columns) are carried through untouched. -/
theorem c10_enrichment_frame {α : Type} (oP oT : String → ProviderResp α)
    (st : EnrichState α) (ls : List (Listing α)) (h : CacheOK st) :
    ∃ st' out, formatListingsRaw oP oT st ls = some (st', out) ∧
      out.length = ls.length ∧
      List.Forall₂ (fun (a b : Listing α) => b.id = a.id ∧
        b.virtualtourscount = a.virtualtourscount ∧
        b.openhousescount = a.openhousescount ∧ b.rest = a.rest) ls out := by
  obtain ⟨st', out, hf, hfa⟩ := formatListingsRaw_ok oP oT st ls h
  exact ⟨st', out, hf, hfa.length_eq.symm, hfa⟩

def c10WListing : Listing Nat :=
  ⟨"L3", 1, 2, none, none, none, none, [("beds", "4")]⟩

def c10OracleP : String → ProviderResp Nat := fun _ => ProviderResp.ok (some [1])

def c10OracleT : String → ProviderResp Nat := fun _ => ProviderResp.ok (some [2])

theorem c10_enrichment_frame_witness :
    CacheOK (⟨[], 0, 0, 0, 0, 0⟩ : EnrichState Nat) ∧
    (∃ st' out, formatListingsRaw c10OracleP c10OracleT
        (⟨[], 0, 0, 0, 0, 0⟩ : EnrichState Nat) [c10WListing] = some (st', out) ∧
      out.length = [c10WListing].length ∧
      List.Forall₂ (fun (a b : Listing Nat) => b.id = a.id ∧
        b.virtualtourscount = a.virtualtourscount ∧
        b.openhousescount = a.openhousescount ∧ b.rest = a.rest) [c10WListing] out) :=
  ⟨by simp [CacheOK],
    c10_enrichment_frame c10OracleP c10OracleT _ [c10WListing] (by simp [CacheOK])⟩

end RealEstate
